import Mathlib

/-!
Verification development for the crawl-controller Durable Object of the
cloudflare-crawler repository.  The definitions below are a shallow
embedding of `src/crawlController.ts` and `src/utils.ts`: JavaScript
numbers are modelled as rationals (`ℚ`), counters that are only ever
incremented from zero as naturals (`ℕ`), JS `Map`/`Set` as association
lists and duplicate-free lists, and the platform pieces the source leans
on (the WHATWG URL parser, `RegExp.test`) as an executable model of the
subset of inputs the controller exercises, respectively an abstract
boolean-valued matcher that the theorems quantify over.
-/

namespace Crawler

/-! ### Character and string helpers -/

/-- Lowercase an ASCII character, as `String.prototype.toLowerCase` does on
the ASCII range used by hostnames in this development. -/
def lowerChar (c : Char) : Char :=
  if 65 ≤ c.toNat ∧ c.toNat ≤ 90 then Char.ofNat (c.toNat + 32) else c

/-- Lowercase a string character by character (ASCII model of
`toLowerCase`). -/
def lowerStr (s : String) : String :=
  ⟨s.data.map lowerChar⟩

/-- Truncation of an integer to a 32-bit two's-complement value, the effect
of JavaScript's `| 0` and of the 32-bit shift in `simpleHash`. -/
def toInt32 (n : ℤ) : ℤ :=
  (n + 2 ^ 31) % 2 ^ 32 - 2 ^ 31

/-- One step of the rolling hash of `utils.ts` `simpleHash`:
`hash = (hash << 5) - hash + charCode; hash |= 0`. -/
def hashStep (h : ℤ) (code : ℕ) : ℤ :=
  toInt32 (toInt32 (h * 32) - h + code)

/-- Model of `utils.ts` `simpleHash`: fold the rolling hash over the
characters and reinterpret the 32-bit result as unsigned (`>>> 0`). -/
def simpleHash (s : String) : ℕ :=
  ((s.data.foldl (fun (h : ℤ) (c : Char) => hashStep h c.toNat) 0) % 2 ^ 32).toNat

/-! ### URL model

The source calls the platform's WHATWG `new URL(...)` parser.  We model it
on the subset of URL strings the controller exercises: an alphabetic
scheme, an optional `//host` authority (no userinfo, no port), a path,
a `?k=v&...` query and a `#fragment`.  Strings without a scheme fail to
parse, mirroring the `URL` constructor throwing. -/

/-- Parsed form of a URL in the modelled subset. -/
structure UrlParts where
  scheme : String
  hasAuthority : Bool
  host : String
  path : String
  query : List (String × String)
  fragment : String
deriving DecidableEq

/-- Split a character list at the first occurrence of `c`; `none` when `c`
does not occur. -/
def splitAtFirst (c : Char) : List Char → Option (List Char × List Char)
  | [] => none
  | x :: xs =>
    if x = c then some ([], xs)
    else (splitAtFirst c xs).map (fun p => (x :: p.1, p.2))

/-- Longest prefix not containing a stop character, together with the
remainder (which begins with the stop character when one was found). -/
def spanUntil (stops : List Char) : List Char → (List Char × List Char)
  | [] => ([], [])
  | x :: xs =>
    if x ∈ stops then ([], x :: xs)
    else
      let p := spanUntil stops xs
      (x :: p.1, p.2)

/-- ASCII letter test. -/
def isAlpha (c : Char) : Bool :=
  decide ((65 ≤ c.toNat ∧ c.toNat ≤ 90) ∨ (97 ≤ c.toNat ∧ c.toNat ≤ 122))

/-- Characters allowed in a URL scheme after the first letter. -/
def isSchemeChar (c : Char) : Bool :=
  isAlpha c || decide (48 ≤ c.toNat ∧ c.toNat ≤ 57) ||
    decide (c = '+' ∨ c = '-' ∨ c = '.')

/-- WHATWG special schemes, whose hosts are lowercased at parse time and
whose empty path serializes as `/`. -/
def isSpecialScheme (s : String) : Bool :=
  s = "http" || s = "https" || s = "ws" || s = "wss" || s = "ftp" || s = "file"

/-- Split a character list into the `&`-separated groups of a query
string. -/
def splitOnAmp : List Char → List (List Char)
  | [] => [[]]
  | c :: cs =>
    if c = '&' then [] :: splitOnAmp cs
    else
      match splitOnAmp cs with
      | g :: gs => (c :: g) :: gs
      | [] => [[c]]

/-- Parse a raw query string (without `?`) into key/value pairs:
parts are separated by `&`, a part splits at its first `=` (no `=` means
an empty value), empty parts are dropped. -/
def parseQuery (cs : List Char) : List (String × String) :=
  (splitOnAmp cs).filterMap (fun part =>
    if part = [] then none
    else
      match splitAtFirst '=' part with
      | some kv => some (⟨kv.1⟩, ⟨kv.2⟩)
      | none => some (⟨part⟩, ""))

/-- Split the path/query/fragment tail of a URL (the part after the
authority, or after the scheme for opaque-path URLs). -/
def parseTail (cs : List Char) : (List Char × List Char × List Char) :=
  let f := spanUntil ['#'] cs
  let fragment := match f.2 with
    | _ :: tl => tl
    | [] => []
  let q := spanUntil ['?'] f.1
  let query := match q.2 with
    | _ :: tl => tl
    | [] => []
  (q.1, query, fragment)

/-- Model of `new URL(raw)` on the documented subset; `none` corresponds to
the constructor throwing. -/
def parseUrl (raw : String) : Option UrlParts :=
  match splitAtFirst ':' raw.data with
  | none => none
  | some sp =>
    if sp.1 = [] then none
    else if ¬ (sp.1.all isSchemeChar = true) then none
    else if ¬ (isAlpha (sp.1.headD 'a') = true) then none
    else
      let scheme := lowerStr ⟨sp.1⟩
      match sp.2 with
      | '/' :: '/' :: rest2 =>
        let a := spanUntil ['/', '?', '#'] rest2
        if a.1 = [] then none
        else if '@' ∈ a.1 ∨ ':' ∈ a.1 then none
        else
          let host := if isSpecialScheme scheme then lowerStr ⟨a.1⟩ else (⟨a.1⟩ : String)
          let t := parseTail a.2
          let path : String := ⟨t.1⟩
          some {
            scheme := scheme
            hasAuthority := true
            host := host
            path := if path = "" ∧ isSpecialScheme scheme then "/" else path
            query := parseQuery t.2.1
            fragment := ⟨t.2.2⟩ }
      | rest =>
        let t := parseTail rest
        some {
          scheme := scheme
          hasAuthority := false
          host := ""
          path := ⟨t.1⟩
          query := parseQuery t.2.1
          fragment := ⟨t.2.2⟩ }

/-- Serialize a query pair list back to `k=v&...` form. -/
def serializeQuery : List (String × String) → String
  | [] => ""
  | [kv] => kv.1 ++ "=" ++ kv.2
  | kv :: rest => kv.1 ++ "=" ++ kv.2 ++ "&" ++ serializeQuery rest

/-- Model of `url.toString()` on the documented subset. -/
def serializeUrl (u : UrlParts) : String :=
  (if u.hasAuthority then u.scheme ++ "://" ++ u.host else u.scheme ++ ":") ++
    u.path ++
    (if u.query = [] then "" else "?" ++ serializeQuery u.query) ++
    (if u.fragment = "" then "" else "#" ++ u.fragment)

/-- Ordering used to model `URLSearchParams.sort()`: stable sort by key. -/
def queryKeyLe (a b : String × String) : Prop :=
  a.1 ≤ b.1

instance : DecidableRel queryKeyLe := fun a b => by
  unfold queryKeyLe; infer_instance

/-- Drop the final character of a string. -/
def dropLastChar (s : String) : String :=
  ⟨s.data.dropLast⟩

/-- Test whether a string ends with the character `c`. -/
def endsWithChar (s : String) (c : Char) : Bool :=
  s.data.getLast? = some c

/-- Model of `utils.ts` `normaliseUrl`: strip the fragment, lowercase the
host, drop a trailing slash from a non-root path, sort the query
parameters; return the input unchanged when parsing fails. -/
def normaliseUrl (raw : String) : String :=
  match parseUrl raw with
  | none => raw
  | some u =>
    let u := { u with fragment := "" }
    let u := { u with host := lowerStr u.host }
    let u :=
      if u.path.length > 1 ∧ endsWithChar u.path '/' then
        { u with path := dropLastChar u.path }
      else u
    let u := { u with query := List.insertionSort queryKeyLe u.query }
    serializeUrl u

/-- Model of `utils.ts` `getDomain`: the lowercased hostname, or `none`
when parsing fails. -/
def getDomain (urlStr : String) : Option String :=
  match parseUrl urlStr with
  | none => none
  | some u => some (lowerStr u.host)

/-- Model of `utils.ts` `isValidUrl`: parses and has an http(s) scheme. -/
def isValidUrl (urlStr : String) : Bool :=
  match parseUrl urlStr with
  | none => false
  | some u => u.scheme = "http" || u.scheme = "https"

/-- JavaScript falsiness of a `string | undefined` value: `undefined` and
the empty string are falsy. -/
def jsFalsyStr : Option String → Bool
  | none => true
  | some s => decide (s = "")

/-- JavaScript truthiness of an optional number (`undefined` and `0` are
falsy), as used by `if (responseTimeMs)` and `if (contentSize)`. -/
def jsTruthyNum : Option ℚ → Bool
  | none => false
  | some q => decide (q ≠ 0)

/-- JavaScript `x || d` for an optional number: the default replaces
`undefined` and `0`. -/
def jsOrNum (o : Option ℚ) (d : ℚ) : ℚ :=
  match o with
  | none => d
  | some v => if v = 0 then d else v

/-! ### Configuration (`types.ts`, defaults of `crawlController.ts`)

Only the sections and fields the controller reads are embedded;
`contentFiltering` and `rendering` are consumed solely by
`buildWorkerConfig`, a pure projection with no effect on controller state,
and are omitted together with it. -/

/-- Rate-limiting configuration section. -/
structure RateLimitConfig where
  minDomainDelayMs : ℚ
  maxDomainDelayMs : ℚ
  errorBackoffMultiplier : ℚ
  jitterFactor : ℚ
  maxConcurrentRequests : ℚ
  globalRateLimitPerMinute : ℚ
deriving DecidableEq

/-- Crawl-behavior configuration section (fields read by the controller). -/
structure CrawlBehaviorConfig where
  maxDepth : ℚ
  maxQueueSize : ℚ
  maxPagesPerRun : ℚ
  defaultBatchSize : ℚ
  requestTimeoutMs : ℚ
  retryCount : ℚ
  respectRobotsTxt : Bool
  followRedirects : Bool
  maxRedirects : ℚ
  userAgent : String
  followLinks : Bool
  sameDomainOnly : Bool
deriving DecidableEq

/-- Domain-scope configuration section. -/
structure DomainScopeConfig where
  allowedDomains : List String
  blockedDomains : List String
  includePatterns : List String
  excludePatterns : List String
  includeSubdomains : Bool
deriving DecidableEq

/-- The per-run configuration record (embedded sections only). -/
structure CrawlConfig where
  id : String
  name : String
  rateLimiting : RateLimitConfig
  crawlBehavior : CrawlBehaviorConfig
  domainScope : DomainScopeConfig
deriving DecidableEq

/-- Default `DEFAULT_RATE_LIMITING` of `crawlController.ts`. -/
def DEFAULT_RATE_LIMITING : RateLimitConfig where
  minDomainDelayMs := 1000
  maxDomainDelayMs := 60000
  errorBackoffMultiplier := 2
  jitterFactor := 1 / 10
  maxConcurrentRequests := 16
  globalRateLimitPerMinute := 0

/-- Default `DEFAULT_CRAWL_BEHAVIOR` of `crawlController.ts`. -/
def DEFAULT_CRAWL_BEHAVIOR : CrawlBehaviorConfig where
  maxDepth := 10
  maxQueueSize := 100000
  maxPagesPerRun := 0
  defaultBatchSize := 10
  requestTimeoutMs := 30000
  retryCount := 3
  respectRobotsTxt := true
  followRedirects := true
  maxRedirects := 5
  userAgent := "CloudflareCrawler/1.0 (+https://github.com/cloudflare-crawler)"
  followLinks := true
  sameDomainOnly := true

/-- Default `DEFAULT_DOMAIN_SCOPE` of `crawlController.ts`. -/
def DEFAULT_DOMAIN_SCOPE : DomainScopeConfig where
  allowedDomains := []
  blockedDomains := []
  includePatterns := []
  excludePatterns := []
  includeSubdomains := true

/-! ### Controller state (`crawlController.ts` internal types) -/

/-- A queued URL in the frontier (`QueuedUrl`). -/
structure QueuedUrl where
  url : String
  domain : String
  depth : ℚ
  addedAt : ℚ
  priority : ℚ
  retryCount : ℕ
deriving DecidableEq

/-- Per-domain politeness state (`DomainState`). -/
structure DomainState where
  lastFetchTime : ℚ
  requestCount : ℕ
  errorCount : ℕ
  successCount : ℕ
  backoffUntil : ℚ
  totalResponseTimeMs : ℚ
  bytesDownloaded : ℚ
deriving DecidableEq

/-- A work item handed to a worker (`WorkItem` of `types.ts`). -/
structure WorkItem where
  url : String
  depth : ℚ
  priority : ℚ
  retryCount : ℕ
deriving DecidableEq

/-- A recent-error record (`CrawlError` of `types.ts`). -/
structure CrawlError where
  url : String
  domain : String
  statusCode : Option ℚ
  message : String
  timestamp : ℚ
deriving DecidableEq

/-- Run statistics (`RunStats` of `types.ts`).  The three counted-up
counters are naturals; the source only ever increments them from zero. -/
structure RunStats where
  urlsQueued : ℕ
  urlsFetched : ℕ
  urlsFailed : ℕ
  bytesDownloaded : ℚ
  domainsDiscovered : ℕ
  queueSize : ℕ
  visitedCount : ℕ
  avgResponseTimeMs : ℚ
  pagesPerMinute : ℚ
  lastActivityAt : ℚ
deriving DecidableEq

/-- Run progress projection (`RunProgress` of `types.ts`). -/
structure RunProgress where
  percentage : ℤ
  estimatedSecondsRemaining : ℤ
  currentDepth : ℚ
  activeDomains : List String
  recentErrors : List CrawlError
deriving DecidableEq

/-- Run lifecycle status. -/
inductive RunStatus where
  | pending
  | running
  | paused
  | completed
  | failed
  | cancelled
deriving DecidableEq

/-- Run state stored in the Durable Object (`RunState`). -/
structure RunState where
  id : String
  status : RunStatus
  config : Option CrawlConfig
  stats : RunStats
  progress : RunProgress
  error : Option String
  startedAt : Option ℚ
  pausedAt : Option ℚ
  completedAt : Option ℚ
deriving DecidableEq

/-- The full controller state after hydration.  `runState` is always
present: `initialize` substitutes `createDefaultRunState()` for a missing
slot before any handler runs, and no handler ever clears it. -/
structure CState where
  pendingQueue : List QueuedUrl
  visitedUrls : List ℕ
  domainStates : List (String × DomainState)
  runState : RunState
  recentErrors : List CrawlError
deriving DecidableEq

/-- Model of `createDefaultRunState` (`lastActivityAt = Date.now()`). -/
def createDefaultRunState (now : ℚ) : RunState where
  id := "default"
  status := RunStatus.pending
  config := none
  stats := {
    urlsQueued := 0
    urlsFetched := 0
    urlsFailed := 0
    bytesDownloaded := 0
    domainsDiscovered := 0
    queueSize := 0
    visitedCount := 0
    avgResponseTimeMs := 0
    pagesPerMinute := 0
    lastActivityAt := now }
  progress := {
    percentage := 0
    estimatedSecondsRemaining := -1
    currentDepth := 0
    activeDomains := []
    recentErrors := [] }
  error := none
  startedAt := none
  pausedAt := none
  completedAt := none

/-- State of a freshly hydrated controller with no persisted slots. -/
def initState (now : ℚ) : CState where
  pendingQueue := []
  visitedUrls := []
  domainStates := []
  runState := createDefaultRunState now
  recentErrors := []

/-- Configuration getter `rateLimiting` (falls back to the default when no
config has been installed). -/
def rateLimitingOf (s : CState) : RateLimitConfig :=
  match s.runState.config with
  | some c => c.rateLimiting
  | none => DEFAULT_RATE_LIMITING

/-- Configuration getter `crawlBehavior`. -/
def crawlBehaviorOf (s : CState) : CrawlBehaviorConfig :=
  match s.runState.config with
  | some c => c.crawlBehavior
  | none => DEFAULT_CRAWL_BEHAVIOR

/-- Configuration getter `domainScope`. -/
def domainScopeOf (s : CState) : DomainScopeConfig :=
  match s.runState.config with
  | some c => c.domainScope
  | none => DEFAULT_DOMAIN_SCOPE

/-! ### JS `Map` and `Set` as lists -/

/-- Lookup in an insertion-ordered association list (JS `Map.get`). -/
def dsGet (m : List (String × DomainState)) (k : String) : Option DomainState :=
  match m with
  | [] => none
  | kv :: rest => if kv.1 = k then some kv.2 else dsGet rest k

/-- Insert or replace in an insertion-ordered association list
(JS `Map.set`: an existing key keeps its position, a new key is appended). -/
def dsSet (m : List (String × DomainState)) (k : String) (v : DomainState) :
    List (String × DomainState) :=
  match m with
  | [] => [(k, v)]
  | kv :: rest => if kv.1 = k then (k, v) :: rest else kv :: dsSet rest k v

/-- Key-membership test (JS `Map.has`). -/
def dsHas (m : List (String × DomainState)) (k : String) : Bool :=
  (dsGet m k).isSome

/-- Set insertion preserving insertion order (JS `Set.add` on the visited
set of hash strings; hashes are represented by their numeric value). -/
def insertVisited (v : List ℕ) (h : ℕ) : List ℕ :=
  if h ∈ v then v else v ++ [h]

/-- A fresh `DomainState` as created on first encounter with a domain
outside of dispatch (`lastFetchTime = 0`). -/
def freshDomainState : DomainState where
  lastFetchTime := 0
  requestCount := 0
  errorCount := 0
  successCount := 0
  backoffUntil := 0
  totalResponseTimeMs := 0
  bytesDownloaded := 0

/-! ### Responses

One record covers every handler response; each handler fills the fields
its JSON reply carries. -/

/-- Handler response. -/
structure Resp where
  success : Bool
  errorCode : Option String
  urls : List WorkItem
  added : ℕ
  rejected : ℕ
  queueSize : ℕ
deriving DecidableEq

/-- A plain success response. -/
def okResp : Resp where
  success := true
  errorCode := none
  urls := []
  added := 0
  rejected := 0
  queueSize := 0

/-- An error response with the given error code. -/
def errResp (code : String) : Resp :=
  { okResp with success := false, errorCode := some code }

/-! ### Domain-scope checks

`RegExp.test` is a platform primitive; the parameter `rt` stands for it
(`rt pattern subject = true` means the pattern compiles and matches; an
invalid pattern, which the source skips via try/catch, is absorbed as a
pattern that never matches). -/

/-- Model of `isAllowedDomain`. -/
def isAllowedDomain (rt : String → String → Bool) (scope : DomainScopeConfig)
    (domain : String) : Bool :=
  if 0 < scope.blockedDomains.length ∧
      scope.blockedDomains.any
        (fun d => domain == d || domain.endsWith ("." ++ d)) = true then
    false
  else if 0 < scope.allowedDomains.length ∧
      scope.allowedDomains.any
        (fun d => domain == d ||
          (scope.includeSubdomains && domain.endsWith ("." ++ d))) = false then
    false
  else if scope.excludePatterns.any (fun p => rt p domain) = true then
    false
  else
    true

/-- Model of `isAllowedUrl`. -/
def isAllowedUrl (rt : String → String → Bool) (scope : DomainScopeConfig)
    (url : String) : Bool :=
  if scope.excludePatterns.any (fun p => rt p url) = true then false
  else if 0 < scope.includePatterns.length ∧
      scope.includePatterns.any (fun p => rt p url) = false then
    false
  else
    true

/-! ### Seed handler -/

/-- Seed request payload (`{urls, depth = 0, priority = 0}`). -/
structure SeedPayload where
  urls : List String
  depth : Option ℚ
  priority : Option ℚ
deriving DecidableEq

/-- Result of the seed loop. -/
structure SeedOut where
  queue : List QueuedUrl
  domains : List (String × DomainState)
  added : ℕ
  rejected : ℕ
deriving DecidableEq

/-- The admission loop of `handleSeed` (lines 306-351): normalize, check
scope, dedupe against the visited set and the queue, stop at the queue
cap, push and track the domain. -/
def seedLoop (rt : String → String → Bool) (scope : DomainScopeConfig)
    (maxQueueSize : ℚ) (visited : List ℕ) (depth priority now : ℚ) :
    List String → List QueuedUrl → List (String × DomainState) → ℕ → ℕ → SeedOut
  | [], q, ds, a, r => ⟨q, ds, a, r⟩
  | rawUrl :: rest, q, ds, a, r =>
    let url := normaliseUrl rawUrl
    let domainOpt := getDomain url
    if jsFalsyStr domainOpt = true then
      seedLoop rt scope maxQueueSize visited depth priority now rest q ds a (r + 1)
    else
      let domain := domainOpt.getD ""
      if isAllowedDomain rt scope domain = false then
        seedLoop rt scope maxQueueSize visited depth priority now rest q ds a (r + 1)
      else if simpleHash url ∈ visited then
        seedLoop rt scope maxQueueSize visited depth priority now rest q ds a r
      else if maxQueueSize ≤ (q.length : ℚ) then
        ⟨q, ds, a, r⟩
      else if q.any (fun item => item.url == url) = true then
        seedLoop rt scope maxQueueSize visited depth priority now rest q ds a r
      else
        let item : QueuedUrl := { url := url, domain := domain, depth := depth,
                                  addedAt := now, priority := priority, retryCount := 0 }
        let q2 := q ++ [item]
        let ds2 := if dsHas ds domain then ds else dsSet ds domain freshDomainState
        seedLoop rt scope maxQueueSize visited depth priority now rest q2 ds2 (a + 1) r

/-- Model of `handleSeed`. -/
def handleSeed (rt : String → String → Bool) (s : CState) (p : SeedPayload)
    (now : ℚ) : CState × Resp :=
  let o := seedLoop rt (domainScopeOf s) (crawlBehaviorOf s).maxQueueSize
    s.visitedUrls (p.depth.getD 0) (p.priority.getD 0) now
    p.urls s.pendingQueue s.domainStates 0 0
  let rs := s.runState
  let rs := { rs with stats := { rs.stats with
    urlsQueued := rs.stats.urlsQueued + o.added
    queueSize := o.queue.length
    domainsDiscovered := o.domains.length
    lastActivityAt := now } }
  ({ s with pendingQueue := o.queue, domainStates := o.domains, runState := rs },
   { okResp with added := o.added, rejected := o.rejected, queueSize := o.queue.length })

/-! ### Lifecycle handlers -/

/-- Model of `handleStart`. -/
def handleStart (s : CState) (now : ℚ) : CState × Resp :=
  if s.runState.status = RunStatus.running then
    (s, errResp "RUN_ALREADY_RUNNING")
  else if s.runState.status = RunStatus.completed ∨
      s.runState.status = RunStatus.cancelled then
    (s, errResp "RUN_COMPLETED")
  else
    let rs := { s.runState with
      status := RunStatus.running
      startedAt := some now
      stats := { s.runState.stats with lastActivityAt := now } }
    ({ s with runState := rs }, okResp)

/-- Model of `handlePause`. -/
def handlePause (s : CState) (now : ℚ) : CState × Resp :=
  if s.runState.status ≠ RunStatus.running then
    (s, errResp "RUN_NOT_RUNNING")
  else
    let rs := { s.runState with status := RunStatus.paused, pausedAt := some now }
    ({ s with runState := rs }, okResp)

/-- Model of `handleResume`. -/
def handleResume (s : CState) (now : ℚ) : CState × Resp :=
  if s.runState.status ≠ RunStatus.paused then
    (s, errResp "INVALID_RUN_STATE")
  else
    let rs := { s.runState with
      status := RunStatus.running
      pausedAt := none
      stats := { s.runState.stats with lastActivityAt := now } }
    ({ s with runState := rs }, okResp)

/-- Model of `handleCancel`.  The `RUN_NOT_FOUND` branch of the source
guards against a null `runState`, which cannot occur after hydration, so
the model cancels unconditionally. -/
def handleCancel (s : CState) (now : ℚ) : CState × Resp :=
  let rs := { s.runState with status := RunStatus.cancelled, completedAt := some now }
  ({ s with runState := rs }, okResp)

/-- Model of `handleReset`. -/
def handleReset (now : ℚ) : CState × Resp :=
  ({ pendingQueue := [], visitedUrls := [], domainStates := [],
     runState := createDefaultRunState now, recentErrors := [] }, okResp)

/-- Model of `handleConfigure`. -/
def handleConfigure (s : CState) (c : CrawlConfig) : CState × Resp :=
  let rs := { s.runState with
    config := some c
    id := if c.id.isEmpty then s.runState.id else c.id }
  ({ s with runState := rs }, okResp)

/-! ### Work-request handler -/

/-- The dispatch ranking: higher priority first, ties broken by older
`addedAt` first.  This is the order produced by the stable
`pendingQueue.sort` with comparator
`(a, b) => b.priority - a.priority || a.addedAt - b.addedAt`. -/
def RankLe (a b : QueuedUrl) : Prop :=
  b.priority < a.priority ∨ (a.priority = b.priority ∧ a.addedAt ≤ b.addedAt)

instance : DecidableRel RankLe := fun a b => by
  unfold RankLe; infer_instance

instance : IsTotal QueuedUrl RankLe where
  total a b := by
    unfold RankLe
    rcases lt_trichotomy a.priority b.priority with h | h | h
    · exact Or.inr (Or.inl h)
    · rcases le_total a.addedAt b.addedAt with h2 | h2
      · exact Or.inl (Or.inr ⟨h, h2⟩)
      · exact Or.inr (Or.inr ⟨h.symm, h2⟩)
    · exact Or.inl (Or.inl h)

instance : IsTrans QueuedUrl RankLe where
  trans a b c hab hbc := by
    unfold RankLe at *
    rcases hab with h1 | ⟨h1, h1a⟩ <;> rcases hbc with h2 | ⟨h2, h2a⟩
    · exact Or.inl (h2.trans h1)
    · exact Or.inl (h2 ▸ h1)
    · exact Or.inl (h1 ▸ h2)
    · exact Or.inr ⟨h1.trans h2, h1a.trans h2a⟩

/-- Stable sort of the frontier by `RankLe` (model of the JS stable
`Array.prototype.sort` under the dispatch comparator). -/
def sortQueue (q : List QueuedUrl) : List QueuedUrl :=
  List.insertionSort RankLe q

/-- Projection of a queued URL to the dispatched work item. -/
def mkWorkItem (q : QueuedUrl) : WorkItem :=
  { url := q.url, depth := q.depth, priority := q.priority, retryCount := q.retryCount }

/-- Result of the dispatch walk. -/
structure TakeOut where
  taken : List QueuedUrl
  remaining : List QueuedUrl
  doms : List String
  visited : List ℕ
  domains : List (String × DomainState)
deriving DecidableEq

/-- The per-domain rate check of the dispatch walk: skip when the domain
is in backoff or was fetched less than `minDelay` ago (a domain with no
state yet is never skipped). -/
def rateSkip (ds : List (String × DomainState)) (domain : String)
    (now minDelay : ℚ) : Bool :=
  match dsGet ds domain with
  | some st => decide (now < st.backoffUntil) || decide (now - st.lastFetchTime < minDelay)
  | none => false

/-- The domain-state update on dispatch: create the entry if missing
(`lastFetchTime = now`, counters zero), then stamp `lastFetchTime` and
bump `requestCount`. -/
def touchDomain (ds : List (String × DomainState)) (domain : String)
    (now : ℚ) : List (String × DomainState) :=
  let ds1 :=
    if dsHas ds domain then ds
    else dsSet ds domain { freshDomainState with lastFetchTime := now }
  let st := (dsGet ds1 domain).getD freshDomainState
  dsSet ds1 domain { st with lastFetchTime := now, requestCount := st.requestCount + 1 }

/-- The dispatch walk of `handleRequestWork` (lines 578-633): fill the
batch respecting backoff, the per-domain minimum delay and the
one-URL-per-domain rule, optimistically marking dispatched URLs visited
and stamping the domain fetch time. -/
def takeBatch (batchSize now minDelay : ℚ) :
    List QueuedUrl → ℕ → List String → List ℕ → List (String × DomainState) → TakeOut
  | [], _, doms, visited, ds => ⟨[], [], doms, visited, ds⟩
  | item :: rest, count, doms, visited, ds =>
    if batchSize ≤ (count : ℚ) then
      { takeBatch batchSize now minDelay rest count doms visited ds with
        remaining := item ::
          (takeBatch batchSize now minDelay rest count doms visited ds).remaining }
    else if rateSkip ds item.domain now minDelay = true then
      { takeBatch batchSize now minDelay rest count doms visited ds with
        remaining := item ::
          (takeBatch batchSize now minDelay rest count doms visited ds).remaining }
    else if item.domain ∈ doms then
      { takeBatch batchSize now minDelay rest count doms visited ds with
        remaining := item ::
          (takeBatch batchSize now minDelay rest count doms visited ds).remaining }
    else
      { takeBatch batchSize now minDelay rest (count + 1) (doms ++ [item.domain])
          (insertVisited visited (simpleHash item.url)) (touchDomain ds item.domain now) with
        taken := item ::
          (takeBatch batchSize now minDelay rest (count + 1) (doms ++ [item.domain])
            (insertVisited visited (simpleHash item.url))
            (touchDomain ds item.domain now)).taken }

/-- Model of `handleRequestWork`. -/
def handleRequestWork (s : CState) (batchSize : Option ℚ) (now : ℚ) :
    CState × Resp :=
  if s.runState.status ≠ RunStatus.running then
    (s, { okResp with queueSize := s.pendingQueue.length })
  else if 0 < (crawlBehaviorOf s).maxPagesPerRun ∧
      (crawlBehaviorOf s).maxPagesPerRun ≤ (s.runState.stats.urlsFetched : ℚ) then
    let rs := { s.runState with status := RunStatus.completed, completedAt := some now }
    ({ s with runState := rs }, { okResp with queueSize := 0 })
  else
    let bs := min (jsOrNum batchSize (crawlBehaviorOf s).defaultBatchSize) 100
    let o := takeBatch bs now (rateLimitingOf s).minDomainDelayMs
      (sortQueue s.pendingQueue) 0 [] s.visitedUrls s.domainStates
    let rs := s.runState
    let rs := { rs with
      stats := { rs.stats with
        queueSize := o.remaining.length
        visitedCount := o.visited.length
        lastActivityAt := now }
      progress := { rs.progress with activeDomains := o.doms } }
    let rs :=
      if o.remaining.length = 0 ∧ o.taken.length = 0 then
        { rs with status := RunStatus.completed, completedAt := some now }
      else rs
    ({ s with
        pendingQueue := o.remaining
        visitedUrls := o.visited
        domainStates := o.domains
        runState := rs },
     { okResp with urls := o.taken.map mkWorkItem, queueSize := o.remaining.length })

/-- The queued URLs dispatched by `handleRequestWork` (the batch before
projection to work items). -/
def requestWorkTaken (s : CState) (batchSize : Option ℚ) (now : ℚ) :
    List QueuedUrl :=
  if s.runState.status ≠ RunStatus.running then []
  else if 0 < (crawlBehaviorOf s).maxPagesPerRun ∧
      (crawlBehaviorOf s).maxPagesPerRun ≤ (s.runState.stats.urlsFetched : ℚ) then []
  else
    (takeBatch (min (jsOrNum batchSize (crawlBehaviorOf s).defaultBatchSize) 100)
      now (rateLimitingOf s).minDomainDelayMs
      (sortQueue s.pendingQueue) 0 [] s.visitedUrls s.domainStates).taken

/-! ### Result-report handler -/

/-- Worker result report (`ResultReport` of `types.ts`, embedded fields). -/
structure ResultReport where
  url : String
  status : ℚ
  contentHash : Option String
  contentSize : Option ℚ
  responseTimeMs : Option ℚ
  discoveredUrls : Option (List String)
  error : Option String
  fetchedAt : ℚ
deriving DecidableEq

/-- Result of the discovered-URL admission loop. -/
structure DiscoverOut where
  queue : List QueuedUrl
  domains : List (String × DomainState)
  added : ℕ
deriving DecidableEq

/-- The discovered-URL admission loop of `handleReportResult`
(lines 757-806).  `parentDepth` is the hard-coded `0` of line 754
(`// TODO: track depth from work item`); it is a parameter here so the
divergence from the specification can be stated. -/
def discoverLoop (rt : String → String → Bool) (beh : CrawlBehaviorConfig)
    (scope : DomainScopeConfig) (domainOpt : Option String) (visited : List ℕ)
    (now parentDepth : ℚ) :
    List String → List QueuedUrl → List (String × DomainState) → ℕ → DiscoverOut
  | [], q, ds, a => ⟨q, ds, a⟩
  | rawUrl :: rest, q, ds, a =>
    if beh.maxQueueSize ≤ (q.length : ℚ) then ⟨q, ds, a⟩
    else if jsFalsyStr (getDomain (normaliseUrl rawUrl)) = true then
      discoverLoop rt beh scope domainOpt visited now parentDepth rest q ds a
    else if beh.sameDomainOnly = true ∧ jsFalsyStr domainOpt = false ∧
        (getDomain (normaliseUrl rawUrl)).getD "" ≠ domainOpt.getD "" then
      discoverLoop rt beh scope domainOpt visited now parentDepth rest q ds a
    else if isAllowedDomain rt scope ((getDomain (normaliseUrl rawUrl)).getD "") = false then
      discoverLoop rt beh scope domainOpt visited now parentDepth rest q ds a
    else if isAllowedUrl rt scope (normaliseUrl rawUrl) = false then
      discoverLoop rt beh scope domainOpt visited now parentDepth rest q ds a
    else if simpleHash (normaliseUrl rawUrl) ∈ visited then
      discoverLoop rt beh scope domainOpt visited now parentDepth rest q ds a
    else if q.any (fun item => item.url == normaliseUrl rawUrl) = true then
      discoverLoop rt beh scope domainOpt visited now parentDepth rest q ds a
    else if beh.maxDepth < parentDepth + 1 then
      discoverLoop rt beh scope domainOpt visited now parentDepth rest q ds a
    else
      discoverLoop rt beh scope domainOpt visited now parentDepth rest
        (q ++ [{ url := normaliseUrl rawUrl,
                 domain := (getDomain (normaliseUrl rawUrl)).getD "",
                 depth := parentDepth + 1, addedAt := now,
                 priority := -(parentDepth + 1), retryCount := 0 }])
        (if dsHas ds ((getDomain (normaliseUrl rawUrl)).getD "") then ds
         else dsSet ds ((getDomain (normaliseUrl rawUrl)).getD "") freshDomainState)
        (a + 1)

/-- The failure test of `handleReportResult`:
`error || (status && status >= 400)`. -/
def reportFailure (r : ResultReport) : Bool :=
  !jsFalsyStr r.error || (decide (r.status ≠ 0) && decide (400 ≤ r.status))

/-- Phase one of `handleReportResult` (lines 683-750): locate the domain
state and apply the failure/success bookkeeping. -/
def reportPhase1 (s : CState) (r : ResultReport) (now : ℚ) : CState :=
  if jsFalsyStr (getDomain r.url) = true then s
  else
    let d := (getDomain r.url).getD ""
    match dsGet s.domainStates d with
    | none => s
    | some st =>
        if reportFailure r = true then
          let st2 := { st with
            errorCount := st.errorCount + 1
            backoffUntil := now + min
              ((rateLimitingOf s).minDomainDelayMs *
                (rateLimitingOf s).errorBackoffMultiplier ^ (st.errorCount + 1))
              (rateLimitingOf s).maxDomainDelayMs }
          let msg := match r.error with
            | some e => if e.isEmpty then "HTTP " ++ toString r.status.num else e
            | none => "HTTP " ++ toString r.status.num
          let ce : CrawlError := { url := r.url, domain := d,
                                   statusCode := some r.status,
                                   message := msg, timestamp := now }
          let es0 := s.recentErrors ++ [ce]
          let es := if 50 < es0.length then es0.drop (es0.length - 50) else es0
          { s with
            domainStates := dsSet s.domainStates d st2
            recentErrors := es
            runState := { s.runState with
              stats := { s.runState.stats with
                urlsFailed := s.runState.stats.urlsFailed + 1 }
              progress := { s.runState.progress with
                recentErrors := es.drop (es.length - 10) } } }
        else
          let st2 := { st with
            errorCount := 0
            backoffUntil := 0
            successCount := st.successCount + 1
            totalResponseTimeMs := st.totalResponseTimeMs +
              (if jsTruthyNum r.responseTimeMs then r.responseTimeMs.getD 0 else 0)
            bytesDownloaded := st.bytesDownloaded +
              (if jsTruthyNum r.contentSize then r.contentSize.getD 0 else 0) }
          let fetched := s.runState.stats.urlsFetched + 1
          let avg :=
            if jsTruthyNum r.responseTimeMs then
              (s.runState.stats.avgResponseTimeMs * ((fetched : ℚ) - 1) +
                r.responseTimeMs.getD 0) / (fetched : ℚ)
            else s.runState.stats.avgResponseTimeMs
          let ppm :=
            match s.runState.startedAt with
            | some t0 =>
              if t0 ≠ 0 then
                if 0 < (now - t0) / 60000 then (fetched : ℚ) / ((now - t0) / 60000)
                else s.runState.stats.pagesPerMinute
              else s.runState.stats.pagesPerMinute
            | none => s.runState.stats.pagesPerMinute
          { s with
            domainStates := dsSet s.domainStates d st2
            runState := { s.runState with
              stats := { s.runState.stats with
                urlsFetched := fetched
                bytesDownloaded := s.runState.stats.bytesDownloaded +
                  (if jsTruthyNum r.contentSize then r.contentSize.getD 0 else 0)
                avgResponseTimeMs := avg
                pagesPerMinute := ppm } } }
/-- Phase two of `handleReportResult` (lines 753-816): admit discovered
URLs when link-following is on.  The parent depth is the hard-coded `0`
of source line 754. -/
def reportPhase2 (rt : String → String → Bool) (s1 : CState) (r : ResultReport)
    (now : ℚ) : CState :=
  if ((match r.discoveredUrls with
        | some l => decide (0 < l.length)
        | none => false) && (crawlBehaviorOf s1).followLinks) = true then
    let parentDepth : ℚ := 0
    let o := discoverLoop rt (crawlBehaviorOf s1) (domainScopeOf s1) (getDomain r.url)
      s1.visitedUrls now parentDepth (r.discoveredUrls.getD [])
      s1.pendingQueue s1.domainStates 0
    { s1 with
      pendingQueue := o.queue
      domainStates := o.domains
      runState := { s1.runState with
        stats := { s1.runState.stats with
          urlsQueued := s1.runState.stats.urlsQueued + o.added
          domainsDiscovered := o.domains.length }
        progress := { s1.runState.progress with
          currentDepth := max s1.runState.progress.currentDepth (parentDepth + 1) } } }
  else s1

/-- Phase three of `handleReportResult` (lines 819-837): recompute the
queue-derived statistics and the progress projection. -/
def reportPhase3 (s2 : CState) (now : ℚ) : CState :=
  let st3 : RunStats := { s2.runState.stats with
    queueSize := s2.pendingQueue.length
    visitedCount := s2.visitedUrls.length
    lastActivityAt := now }
  let prog :=
    if 0 < st3.urlsQueued then
      let prog := { s2.runState.progress with
        percentage := round ((((st3.urlsFetched + st3.urlsFailed : ℕ) : ℚ) /
          ((st3.urlsQueued : ℕ) : ℚ)) * 100) }
      if 0 < st3.pagesPerMinute then
        let est := round (((s2.pendingQueue.length : ℚ) / st3.pagesPerMinute) * 60)
        { prog with estimatedSecondsRemaining := est }
      else prog
    else s2.runState.progress
  { s2 with runState := { s2.runState with stats := st3, progress := prog } }

/-- Model of `handleReportResult` as the composition of its three
phases; the response is always `{success: true}`. -/
def handleReportResult (rt : String → String → Bool) (s : CState)
    (r : ResultReport) (now : ℚ) : CState × Resp :=
  (reportPhase3 (reportPhase2 rt (reportPhase1 s r now) r now) now, okResp)

/-! ### Maintenance handler -/

/-- Model of `handleCron`. -/
def handleCron (s : CState) (now : ℚ) : CState × Resp :=
  let ds1 := s.domainStates.map (fun kv =>
    if 0 < kv.2.backoffUntil ∧ kv.2.backoffUntil < now then
      (kv.1, { kv.2 with backoffUntil := 0 })
    else kv)
  let ds2 := ds1.filter (fun kv =>
    !(decide (kv.2.lastFetchTime < now - 3600000) && decide (kv.2.requestCount = 0)))
  let err :=
    if s.runState.status = RunStatus.running ∧
        s.runState.stats.lastActivityAt < now - 1800000 ∧
        0 < s.pendingQueue.length then
      some "Run stalled - no activity for 30 minutes"
    else s.runState.error
  let rs := { s.runState with
    error := err
    stats := { s.runState.stats with lastActivityAt := now } }
  ({ s with domainStates := ds2, runState := rs },
   { okResp with queueSize := s.pendingQueue.length })

/-! ### Operations and traces

Within one run the Durable Object serializes all handlers, so a run's
history is a sequence of operations applied to the hydrated state.  Each
operation carries the `Date.now()` timestamp observed while it ran. -/

/-- One controller operation. -/
inductive Op where
  | seed (p : SeedPayload) (now : ℚ)
  | configure (c : CrawlConfig)
  | start (now : ℚ)
  | pause (now : ℚ)
  | resume (now : ℚ)
  | cancel (now : ℚ)
  | reset (now : ℚ)
  | requestWork (batchSize : Option ℚ) (now : ℚ)
  | reportResult (r : ResultReport) (now : ℚ)
  | cron (now : ℚ)
deriving DecidableEq

/-- Dispatch an operation to its handler. -/
def stepR (rt : String → String → Bool) (s : CState) : Op → CState × Resp
  | Op.seed p now => handleSeed rt s p now
  | Op.configure c => handleConfigure s c
  | Op.start now => handleStart s now
  | Op.pause now => handlePause s now
  | Op.resume now => handleResume s now
  | Op.cancel now => handleCancel s now
  | Op.reset now => handleReset now
  | Op.requestWork b now => handleRequestWork s b now
  | Op.reportResult r now => handleReportResult rt s r now
  | Op.cron now => handleCron s now

/-- The state after an operation. -/
def step (rt : String → String → Bool) (s : CState) (op : Op) : CState :=
  (stepR rt s op).1

/-- The state after a sequence of operations. -/
def runOps (rt : String → String → Bool) (s : CState) (ops : List Op) : CState :=
  ops.foldl (step rt) s

/-- Fold that also accumulates every URL handed out by `request-work`
responses, in order. -/
def stepDisp (rt : String → String → Bool) (sd : CState × List String) (op : Op) :
    CState × List String :=
  ((stepR rt sd.1 op).1, sd.2 ++ ((stepR rt sd.1 op).2.urls.map (fun w => w.url)))

/-- All URLs dispatched over a trace, as one list (the multiset union of
all `request-work` responses). -/
def allDispatched (rt : String → String → Bool) (s : CState) (ops : List Op) :
    List String :=
  (ops.foldl (stepDisp rt) (s, [])).2

/-- Test for the reset operation. -/
def isReset : Op → Bool
  | Op.reset _ => true
  | _ => false

/-- Outstanding-work bookkeeping for admissible traces: dispatching adds
the batch URLs, a report consumes one occurrence of its URL, reset clears
the set (a reset abandons all outstanding work). -/
def nextOutstanding (_rt : String → String → Bool) (s : CState) (o : List String) :
    Op → List String
  | Op.requestWork b now => o ++ ((handleRequestWork s b now).2.urls.map (fun w => w.url))
  | Op.reportResult r _ => o.erase r.url
  | Op.reset _ => []
  | _ => o

/-- A trace is admissible when every result report is for a URL that was
dispatched earlier and not yet reported (and not invalidated by a reset):
the worker protocol of the specification. -/
def admissible (rt : String → String → Bool) (s : CState) (o : List String) :
    List Op → Bool
  | [] => true
  | op :: rest =>
    (match op with
     | Op.reportResult r _ => decide (r.url ∈ o)
     | _ => true) &&
    admissible rt (step rt s op) (nextOutstanding rt s o op) rest

/-- The backoff duration the controller assigns after a failure, as a
function of the post-increment error count. -/
def backoffDur (rl : RateLimitConfig) (e : ℕ) : ℚ :=
  min (rl.minDomainDelayMs * rl.errorBackoffMultiplier ^ e) rl.maxDomainDelayMs

/-- Replace the `globalRateLimitPerMinute` field of an installed
configuration (identity when no configuration is installed). -/
def setGlobalRate (s : CState) (g : ℚ) : CState :=
  match s.runState.config with
  | none => s
  | some c =>
    let c2 := { c with rateLimiting :=
      { c.rateLimiting with globalRateLimitPerMinute := g } }
    { s with runState := { s.runState with config := some c2 } }

/-- Modelled from the spec: the source has no sliding-window tracker, so
the fetch history of a trace is reconstructed from the dispatch events;
every URL of a `request-work` batch counts as one fetch at that
operation's timestamp (spec section 4.3, "track fetches in a 60-second
sliding window"). -/
def fetchEvents (rt : String → String → Bool) (s : CState) : List Op → List ℚ
  | [] => []
  | op :: rest =>
    (match op with
     | Op.requestWork b now =>
       ((handleRequestWork s b now).2.urls.map (fun _ => now))
     | _ => []) ++ fetchEvents rt (step rt s op) rest

/-- Modelled from the spec: the number of fetches in the trailing
60-second window at time `t`. -/
def fetchesInWindow (events : List ℚ) (t : ℚ) : ℕ :=
  (events.filter (fun e => decide (t - 60000 < e) && decide (e ≤ t))).length

/-! ### Concrete inputs used by the closed theorems below -/

/-- A regex oracle under which no pattern matches.  Every concrete trace
below runs with empty pattern lists, so the choice is irrelevant. -/
def rtFalse : String → String → Bool := fun _ _ => false

/-- Seed payload with default depth and priority. -/
def seedOf (urls : List String) : SeedPayload :=
  { urls := urls, depth := none, priority := none }

/-- A minimal result report. -/
def reportOf (url : String) (status : ℚ) (discovered : Option (List String)) :
    ResultReport :=
  { url := url, status := status, contentHash := none, contentSize := none,
    responseTimeMs := none, discoveredUrls := discovered, error := none,
    fetchedAt := 0 }

/-- Default-valued full configuration with the given id and overrides. -/
def cfgDefault : CrawlConfig :=
  { id := "cfg", name := "cfg", rateLimiting := DEFAULT_RATE_LIMITING,
    crawlBehavior := DEFAULT_CRAWL_BEHAVIOR, domainScope := DEFAULT_DOMAIN_SCOPE }

/-- Configuration with `maxDepth = 1` (spec scenario 5). -/
def cfgDepth1 : CrawlConfig :=
  { cfgDefault with crawlBehavior := { DEFAULT_CRAWL_BEHAVIOR with maxDepth := 1 } }

/-- Configuration with `globalRateLimitPerMinute = 1`. -/
def cfgRate1 : CrawlConfig :=
  { cfgDefault with rateLimiting :=
      { DEFAULT_RATE_LIMITING with globalRateLimitPerMinute := 1 } }

/-- Depth-propagation trace (spec scenario 5): crawl `https://a.test/` at
`maxDepth = 1`, follow the discovered `https://a.test/x`, and report a
link discovered on it. -/
def c1trace : List Op :=
  [Op.configure cfgDepth1,
   Op.seed (seedOf ["https://a.test/"]) 1000,
   Op.start 2000,
   Op.requestWork (some 1) 100000,
   Op.reportResult (reportOf "https://a.test/" 200
     (some ["https://a.test/x", "https://other.test/y"])) 101000,
   Op.requestWork (some 1) 200000,
   Op.reportResult (reportOf "https://a.test/x" 200
     (some ["https://a.test/x/child"])) 201000]

/-- Dispatch trace whose two `request-work` calls straddle a `reset`. -/
def c2trace : List Op :=
  [Op.seed (seedOf ["https://a.test/p1"]) 1000, Op.start 2000,
   Op.requestWork (some 5) 10000,
   Op.reset 11000,
   Op.seed (seedOf ["https://a.test/p1"]) 20000, Op.start 21000,
   Op.requestWork (some 5) 30000]

/-- Trace reporting the same URL twice after a single admission. -/
def c3trace : List Op :=
  [Op.seed (seedOf ["https://a.test/p1"]) 1000,
   Op.reportResult (reportOf "https://a.test/p1" 200 none) 2000,
   Op.reportResult (reportOf "https://a.test/p1" 200 none) 3000]

/-- Prefix trace for the global-rate-limit scenario: limit 1 per minute,
two seeded domains, one URL already dispatched at time 10000. -/
def c7trace : List Op :=
  [Op.configure cfgRate1,
   Op.seed (seedOf ["https://a.test/p", "https://b.test/p"]) 1000,
   Op.start 2000,
   Op.requestWork (some 1) 10000]

/-- State reached by the global-rate-limit prefix trace. -/
def c7state : CState :=
  runOps rtFalse (initState 0) c7trace

/-- A run driven to `completed` by an empty-queue dispatch. -/
def completedState : CState :=
  runOps rtFalse (initState 0) [Op.start 1000, Op.requestWork none 2000]

/-! ### Invariants -/

/-- The URLs currently in the frontier. -/
def queueUrls (s : CState) : List String :=
  s.pendingQueue.map (fun q => q.url)

/-- The no-double-dispatch invariant: the frontier holds no duplicate
URLs, the dispatched list holds no duplicates, and every dispatched URL
is hashed into the visited set and absent from the frontier. -/
def NoDoubleDispatchInv (s : CState) (disp : List String) : Prop :=
  (queueUrls s).Nodup ∧ disp.Nodup ∧
    ∀ u ∈ disp, simpleHash u ∈ s.visitedUrls ∧ u ∉ queueUrls s

/-- The conservation invariant, strengthened with the outstanding
dispatched-but-unreported URLs: processed counters plus outstanding work
plus the frontier never exceed the admission counter. -/
def ConservationInv (s : CState) (o : List String) : Prop :=
  s.runState.stats.urlsFetched + s.runState.stats.urlsFailed +
    o.length + s.pendingQueue.length ≤ s.runState.stats.urlsQueued


/-- State after seeding one URL from the initial state. -/
def seededA : CState :=
  runOps rtFalse (initState 0) [Op.seed (seedOf ["https://a.test/p1"]) 1000]

/-- State after seeding two URLs on distinct domains and starting. -/
def runningAB : CState :=
  runOps rtFalse (initState 0)
    [Op.seed (seedOf ["https://a.test/p1", "https://b.test/p2"]) 1000, Op.start 2000]

/-- The admissibility guard of one operation: a result report must name
an outstanding URL; every other operation is unconstrained. -/
def admGuard (o : List String) : Op → Bool
  | Op.reportResult r _ => decide (r.url ∈ o)
  | _ => true

/-- A reset-free trace: seed two URLs, start, dispatch, report one with a
discovered link, dispatch again. -/
def c2okTrace : List Op :=
  [Op.seed (seedOf ["https://a.test/p1", "https://b.test/p1"]) 1000,
   Op.start 2000,
   Op.requestWork (some 5) 10000,
   Op.reportResult (reportOf "https://a.test/p1" 200
     (some ["https://a.test/p2"])) 20000,
   Op.requestWork (some 5) 400000]

/-- An admissible trace: every report is for a URL dispatched earlier and
not yet reported. -/
def c3okTrace : List Op :=
  [Op.seed (seedOf ["https://a.test/p1"]) 1000,
   Op.start 2000,
   Op.requestWork (some 5) 10000,
   Op.reportResult (reportOf "https://a.test/p1" 200
     (some ["https://a.test/p2"])) 20000]

end Crawler

namespace Crawler

set_option maxRecDepth 16000

/-! ### Helper lemmas about the map, set, and loop primitives -/


theorem dsGet_dsSet_self (m : List (String × DomainState)) (k : String) (v : DomainState) :
    dsGet (dsSet m k v) k = some v := by
  induction m with
  | nil => simp [dsSet, dsGet]
  | cons kv rest ih =>
    by_cases h : kv.1 = k
    · simp [dsSet, h, dsGet]
    · simp [dsSet, h, dsGet, ih]

theorem dsGet_dsSet_ne (m : List (String × DomainState)) (k k' : String)
    (v : DomainState) (h : k ≠ k') :
    dsGet (dsSet m k v) k' = dsGet m k' := by
  induction m with
  | nil => simp [dsSet, dsGet, h]
  | cons kv rest ih =>
    by_cases h2 : kv.1 = k
    · simp [dsSet, h2, dsGet, h, ih]
    · by_cases h3 : kv.1 = k'
      · rw [dsSet, if_neg h2]
        simp [dsGet, h3]
      · rw [dsSet, if_neg h2]
        simp [dsGet, h3, ih]

theorem seedLoop_spec (rt : String → String → Bool) (scope : DomainScopeConfig)
    (mqs : ℚ) (visited : List ℕ) (depth priority now : ℚ) :
    ∀ (urls : List String) (q : List QueuedUrl) (ds : List (String × DomainState)) (a r : ℕ),
    ∃ new : List QueuedUrl,
      (seedLoop rt scope mqs visited depth priority now urls q ds a r).queue = q ++ new ∧
      (seedLoop rt scope mqs visited depth priority now urls q ds a r).added = a + new.length ∧
      (∀ it ∈ new, jsFalsyStr (getDomain it.url) = false ∧ simpleHash it.url ∉ visited) ∧
      ((q.map (fun x => x.url)).Nodup → ((q ++ new).map (fun x => x.url)).Nodup) ∧
      (∀ k v, dsGet ds k = some v →
        dsGet (seedLoop rt scope mqs visited depth priority now urls q ds a r).domains k = some v) := by
  intro urls
  induction urls with
  | nil =>
    intro q ds a r
    refine ⟨[], by simp [seedLoop], by simp [seedLoop], by simp, fun h => by simpa using h, ?_⟩
    intro k v hv
    simpa [seedLoop] using hv
  | cons rawUrl rest ih =>
    intro q ds a r
    simp only [seedLoop]
    split
    · exact ih q ds a (r + 1)
    · split
      · exact ih q ds a (r + 1)
      · split
        · exact ih q ds a r
        · split
          · refine ⟨[], by simp, by simp, by simp, fun h => by simpa using h, fun k v hv => hv⟩
          · split
            · exact ih q ds a r
            · rename_i hdom hallow hvis hqs hdup
              obtain ⟨new, h1, h2, h3, h4, h5⟩ := ih (q ++ [{ url := normaliseUrl rawUrl, domain := (getDomain (normaliseUrl rawUrl)).getD "", depth := depth, addedAt := now, priority := priority, retryCount := 0 }]) (if dsHas ds ((getDomain (normaliseUrl rawUrl)).getD "") then ds else dsSet ds ((getDomain (normaliseUrl rawUrl)).getD "") freshDomainState) (a + 1) r
              refine ⟨{ url := normaliseUrl rawUrl, domain := (getDomain (normaliseUrl rawUrl)).getD "", depth := depth, addedAt := now, priority := priority, retryCount := 0 } :: new, ?_, ?_, ?_, ?_, ?_⟩
              · rw [h1, List.append_assoc, List.singleton_append]
              · rw [h2]; simp; omega
              · intro it hit
                rcases List.mem_cons.mp hit with he | hm
                · subst he
                  exact ⟨by simpa using hdom, by simpa using hvis⟩
                · exact h3 it hm
              · intro hq
                have hnotin : normaliseUrl rawUrl ∉ q.map (fun x => x.url) := by
                  intro hmem
                  rcases List.mem_map.mp hmem with ⟨x, hx, hxe⟩
                  exact hdup (List.any_eq_true.mpr ⟨x, hx, by simp [hxe]⟩)
                have hq2 : ((q ++ [{ url := normaliseUrl rawUrl, domain := (getDomain (normaliseUrl rawUrl)).getD "", depth := depth, addedAt := now, priority := priority, retryCount := 0 }] : List QueuedUrl).map (fun x => x.url)).Nodup := by
                  simp [List.nodup_append, hq, hnotin]
                have hres := h4 hq2
                rwa [List.append_assoc, List.singleton_append] at hres
              · intro k v hv
                apply h5
                by_cases hhas : dsHas ds ((getDomain (normaliseUrl rawUrl)).getD "") = true
                · simpa [hhas] using hv
                · have hnone : dsGet ds ((getDomain (normaliseUrl rawUrl)).getD "") = none := by
                    simp [dsHas, Option.isSome_iff_exists] at hhas
                    exact Option.eq_none_iff_forall_not_mem.mpr (fun x hx => hhas x hx)
                  have hk : ((getDomain (normaliseUrl rawUrl)).getD "") ≠ k := by
                    intro he
                    rw [he, hv] at hnone
                    exact Option.noConfusion hnone
                  simp only [hhas, if_false, Bool.false_eq_true]
                  rw [dsGet_dsSet_ne _ _ _ _ hk]
                  exact hv


theorem mem_insertVisited_self (v : List ℕ) (h : ℕ) : h ∈ insertVisited v h := by
  unfold insertVisited
  split
  · assumption
  · simp

theorem mem_insertVisited_of_mem (v : List ℕ) (h h2 : ℕ) (hm : h ∈ v) :
    h ∈ insertVisited v h2 := by
  unfold insertVisited
  split
  · assumption
  · simp [hm]

theorem discoverLoop_spec (rt : String → String → Bool) (beh : CrawlBehaviorConfig)
    (scope : DomainScopeConfig) (domainOpt : Option String) (visited : List ℕ)
    (now pd : ℚ) :
    ∀ (urls : List String) (q : List QueuedUrl) (ds : List (String × DomainState)) (a : ℕ),
    ∃ new : List QueuedUrl,
      (discoverLoop rt beh scope domainOpt visited now pd urls q ds a).queue = q ++ new ∧
      (discoverLoop rt beh scope domainOpt visited now pd urls q ds a).added = a + new.length ∧
      (∀ it ∈ new, jsFalsyStr (getDomain it.url) = false ∧ simpleHash it.url ∉ visited) ∧
      ((q.map (fun x => x.url)).Nodup → ((q ++ new).map (fun x => x.url)).Nodup) ∧
      (∀ k v, dsGet ds k = some v →
        dsGet (discoverLoop rt beh scope domainOpt visited now pd urls q ds a).domains k = some v) := by
  intro urls
  induction urls with
  | nil =>
    intro q ds a
    refine ⟨[], by simp [discoverLoop], by simp [discoverLoop], by simp,
      fun h => by simpa using h, ?_⟩
    intro k v hv
    simpa [discoverLoop] using hv
  | cons rawUrl rest ih =>
    intro q ds a
    simp only [discoverLoop]
    by_cases hc1 : beh.maxQueueSize ≤ (q.length : ℚ)
    · rw [if_pos hc1]
      exact ⟨[], by simp, by simp, by simp, fun h => by simpa using h, fun k v hv => hv⟩
    · rw [if_neg hc1]
      by_cases hc2 : jsFalsyStr (getDomain (normaliseUrl rawUrl)) = true
      · rw [if_pos hc2]
        exact ih q ds a
      · rw [if_neg hc2]
        by_cases hc3 : beh.sameDomainOnly = true ∧ jsFalsyStr domainOpt = false ∧
            (getDomain (normaliseUrl rawUrl)).getD "" ≠ domainOpt.getD ""
        · rw [if_pos hc3]
          exact ih q ds a
        · rw [if_neg hc3]
          by_cases hc4 : isAllowedDomain rt scope ((getDomain (normaliseUrl rawUrl)).getD "") = false
          · rw [if_pos hc4]
            exact ih q ds a
          · rw [if_neg hc4]
            by_cases hc5 : isAllowedUrl rt scope (normaliseUrl rawUrl) = false
            · rw [if_pos hc5]
              exact ih q ds a
            · rw [if_neg hc5]
              by_cases hc6 : simpleHash (normaliseUrl rawUrl) ∈ visited
              · rw [if_pos hc6]
                exact ih q ds a
              · rw [if_neg hc6]
                by_cases hc7 : q.any (fun item => item.url == normaliseUrl rawUrl) = true
                · rw [if_pos hc7]
                  exact ih q ds a
                · rw [if_neg hc7]
                  by_cases hc8 : beh.maxDepth < pd + 1
                  · rw [if_pos hc8]
                    exact ih q ds a
                  · rw [if_neg hc8]
                    obtain ⟨new, h1, h2, h3, h4, h5⟩ := ih (q ++ [{ url := normaliseUrl rawUrl, domain := (getDomain (normaliseUrl rawUrl)).getD "", depth := pd + 1, addedAt := now, priority := -(pd + 1), retryCount := 0 }]) (if dsHas ds ((getDomain (normaliseUrl rawUrl)).getD "") then ds else dsSet ds ((getDomain (normaliseUrl rawUrl)).getD "") freshDomainState) (a + 1)
                    refine ⟨{ url := normaliseUrl rawUrl, domain := (getDomain (normaliseUrl rawUrl)).getD "", depth := pd + 1, addedAt := now, priority := -(pd + 1), retryCount := 0 } :: new, ?_, ?_, ?_, ?_, ?_⟩
                    · rw [h1, List.append_assoc, List.singleton_append]
                    · rw [h2]; simp; omega
                    · intro it hit
                      rcases List.mem_cons.mp hit with he | hm
                      · subst he
                        exact ⟨by simpa using hc2, hc6⟩
                      · exact h3 it hm
                    · intro hq
                      have hnotin : normaliseUrl rawUrl ∉ q.map (fun x => x.url) := by
                        intro hmem
                        rcases List.mem_map.mp hmem with ⟨x, hx, hxe⟩
                        exact hc7 (List.any_eq_true.mpr ⟨x, hx, by simp [hxe]⟩)
                      have hq2 : ((q ++ [{ url := normaliseUrl rawUrl, domain := (getDomain (normaliseUrl rawUrl)).getD "", depth := pd + 1, addedAt := now, priority := -(pd + 1), retryCount := 0 }] : List QueuedUrl).map (fun x => x.url)).Nodup := by
                        simp [List.nodup_append, hq, hnotin]
                      have hres := h4 hq2
                      rwa [List.append_assoc, List.singleton_append] at hres
                    · intro k v hv
                      apply h5
                      by_cases hhas : dsHas ds ((getDomain (normaliseUrl rawUrl)).getD "") = true
                      · simpa [hhas] using hv
                      · have hnone : dsGet ds ((getDomain (normaliseUrl rawUrl)).getD "") = none := by
                          simp [dsHas, Option.isSome_iff_exists] at hhas
                          exact Option.eq_none_iff_forall_not_mem.mpr (fun x hx => hhas x hx)
                        have hk : ((getDomain (normaliseUrl rawUrl)).getD "") ≠ k := by
                          intro he
                          rw [he, hv] at hnone
                          exact Option.noConfusion hnone
                        simp only [hhas, if_false, Bool.false_eq_true]
                        rw [dsGet_dsSet_ne _ _ _ _ hk]
                        exact hv


theorem takeBatch_spec (bs now minDelay : ℚ) :
    ∀ (input : List QueuedUrl) (count : ℕ) (doms : List String) (visited : List ℕ)
      (ds : List (String × DomainState)),
      ((takeBatch bs now minDelay input count doms visited ds).taken.Sublist input) ∧
      (((takeBatch bs now minDelay input count doms visited ds).taken ++
        (takeBatch bs now minDelay input count doms visited ds).remaining).Perm input) ∧
      (∀ h ∈ visited, h ∈ (takeBatch bs now minDelay input count doms visited ds).visited) ∧
      (∀ t ∈ (takeBatch bs now minDelay input count doms visited ds).taken,
        simpleHash t.url ∈ (takeBatch bs now minDelay input count doms visited ds).visited) ∧
      (((takeBatch bs now minDelay input count doms visited ds).taken.map
        (fun x => x.domain)).Nodup) ∧
      (∀ t ∈ (takeBatch bs now minDelay input count doms visited ds).taken,
        t.domain ∉ doms) := by
  intro input
  induction input with
  | nil =>
    intro count doms visited ds
    refine ⟨by simp [takeBatch], by simp [takeBatch], ?_, by simp [takeBatch], by simp [takeBatch], by simp [takeBatch]⟩
    intro h hm
    simpa [takeBatch] using hm
  | cons item rest ih =>
    intro count doms visited ds
    simp only [takeBatch]
    by_cases hc1 : bs ≤ (count : ℚ)
    · rw [if_pos hc1]
      obtain ⟨i1, i2, i3, i4, i5, i6⟩ := ih count doms visited ds
      exact ⟨i1.cons item, List.perm_middle.trans (i2.cons item), i3, i4, i5, i6⟩
    · rw [if_neg hc1]
      by_cases hc2 : rateSkip ds item.domain now minDelay = true
      · rw [if_pos hc2]
        obtain ⟨i1, i2, i3, i4, i5, i6⟩ := ih count doms visited ds
        exact ⟨i1.cons item, List.perm_middle.trans (i2.cons item), i3, i4, i5, i6⟩
      · rw [if_neg hc2]
        by_cases hc3 : item.domain ∈ doms
        · rw [if_pos hc3]
          obtain ⟨i1, i2, i3, i4, i5, i6⟩ := ih count doms visited ds
          exact ⟨i1.cons item, List.perm_middle.trans (i2.cons item), i3, i4, i5, i6⟩
        · rw [if_neg hc3]
          obtain ⟨i1, i2, i3, i4, i5, i6⟩ := ih (count + 1) (doms ++ [item.domain])
            (insertVisited visited (simpleHash item.url)) (touchDomain ds item.domain now)
          refine ⟨i1.cons₂ item, (i2.cons item), ?_, ?_, ?_, ?_⟩
          · intro h hm
            exact i3 h (mem_insertVisited_of_mem _ _ _ hm)
          · intro t ht
            rcases List.mem_cons.mp ht with he | hm
            · subst he
              exact i3 _ (mem_insertVisited_self _ _)
            · exact i4 t hm
          · refine List.nodup_cons.mpr ⟨?_, i5⟩
            intro hmem
            rcases List.mem_map.mp hmem with ⟨t, ht, hte⟩
            have := i6 t ht
            simp [hte] at this
          · intro t ht
            rcases List.mem_cons.mp ht with he | hm
            · subst he
              exact hc3
            · intro hmem
              exact (i6 t hm) (List.mem_append_left _ hmem)


theorem reportPhase1_frame (s : CState) (r : ResultReport) (now : ℚ) :
    (reportPhase1 s r now).pendingQueue = s.pendingQueue ∧
    (reportPhase1 s r now).visitedUrls = s.visitedUrls ∧
    (reportPhase1 s r now).runState.status = s.runState.status ∧
    (reportPhase1 s r now).runState.config = s.runState.config ∧
    (reportPhase1 s r now).runState.stats.urlsQueued = s.runState.stats.urlsQueued ∧
    (reportPhase1 s r now).runState.stats.urlsFetched +
      (reportPhase1 s r now).runState.stats.urlsFailed ≤
      s.runState.stats.urlsFetched + s.runState.stats.urlsFailed + 1 := by
  unfold reportPhase1
  by_cases h1 : jsFalsyStr (getDomain r.url) = true
  · rw [if_pos h1]
    simp
  · rw [if_neg h1]
    cases hget : dsGet s.domainStates ((getDomain r.url).getD "") with
    | none => simp [hget]
    | some st =>
      by_cases hf : reportFailure r = true
      · simp only [hget, hf]
        refine ⟨by simp, by simp, by simp, by simp, by simp, by simp; omega⟩
      · simp only [hget, hf]
        refine ⟨by simp, by simp, by simp, by simp, by simp, by simp; omega⟩

theorem reportPhase2_spec (rt : String → String → Bool) (s1 : CState)
    (r : ResultReport) (now : ℚ) :
    ∃ new : List QueuedUrl,
      (reportPhase2 rt s1 r now).pendingQueue = s1.pendingQueue ++ new ∧
      (reportPhase2 rt s1 r now).visitedUrls = s1.visitedUrls ∧
      (reportPhase2 rt s1 r now).recentErrors = s1.recentErrors ∧
      (reportPhase2 rt s1 r now).runState.status = s1.runState.status ∧
      (reportPhase2 rt s1 r now).runState.config = s1.runState.config ∧
      (reportPhase2 rt s1 r now).runState.stats.urlsFetched =
        s1.runState.stats.urlsFetched ∧
      (reportPhase2 rt s1 r now).runState.stats.urlsFailed =
        s1.runState.stats.urlsFailed ∧
      (reportPhase2 rt s1 r now).runState.stats.avgResponseTimeMs =
        s1.runState.stats.avgResponseTimeMs ∧
      (reportPhase2 rt s1 r now).runState.stats.bytesDownloaded =
        s1.runState.stats.bytesDownloaded ∧
      (reportPhase2 rt s1 r now).runState.stats.urlsQueued =
        s1.runState.stats.urlsQueued + new.length ∧
      (∀ it ∈ new, jsFalsyStr (getDomain it.url) = false ∧
        simpleHash it.url ∉ s1.visitedUrls) ∧
      ((s1.pendingQueue.map (fun x => x.url)).Nodup →
        ((s1.pendingQueue ++ new).map (fun x => x.url)).Nodup) ∧
      (∀ k v, dsGet s1.domainStates k = some v →
        dsGet (reportPhase2 rt s1 r now).domainStates k = some v) := by
  unfold reportPhase2
  by_cases hc : ((match r.discoveredUrls with
        | some l => decide (0 < l.length)
        | none => false) && (crawlBehaviorOf s1).followLinks) = true
  · rw [if_pos hc]
    obtain ⟨new, h1, h2, h3, h4, h5⟩ := discoverLoop_spec rt (crawlBehaviorOf s1)
      (domainScopeOf s1) (getDomain r.url) s1.visitedUrls now 0
      (r.discoveredUrls.getD []) s1.pendingQueue s1.domainStates 0
    refine ⟨new, by simp [h1], by simp, by simp, by simp, by simp, by simp, by simp,
      by simp, by simp, ?_, h3, h4, ?_⟩
    · simp [h2]
    · intro k v hv
      simpa using h5 k v hv
  · rw [if_neg hc]
    exact ⟨[], by simp, by simp, by simp, by simp, by simp, by simp, by simp,
      by simp, by simp, by simp, by simp, fun h => by simpa using h, fun k v hv => hv⟩

theorem reportPhase3_frame (s2 : CState) (now : ℚ) :
    (reportPhase3 s2 now).pendingQueue = s2.pendingQueue ∧
    (reportPhase3 s2 now).visitedUrls = s2.visitedUrls ∧
    (reportPhase3 s2 now).domainStates = s2.domainStates ∧
    (reportPhase3 s2 now).recentErrors = s2.recentErrors ∧
    (reportPhase3 s2 now).runState.status = s2.runState.status ∧
    (reportPhase3 s2 now).runState.config = s2.runState.config ∧
    (reportPhase3 s2 now).runState.stats.urlsQueued = s2.runState.stats.urlsQueued ∧
    (reportPhase3 s2 now).runState.stats.urlsFetched = s2.runState.stats.urlsFetched ∧
    (reportPhase3 s2 now).runState.stats.urlsFailed = s2.runState.stats.urlsFailed ∧
    (reportPhase3 s2 now).runState.stats.avgResponseTimeMs =
      s2.runState.stats.avgResponseTimeMs ∧
    (reportPhase3 s2 now).runState.stats.bytesDownloaded =
      s2.runState.stats.bytesDownloaded := by
  simp [reportPhase3]

/-! ### Claim theorems -/

/-- Claim C1.  The code evaluated at the failing input: after crawling
`https://a.test/` at `maxDepth = 1` and dispatching the discovered
`https://a.test/x` at depth 1, a report discovering
`https://a.test/x/child` enqueues the child at depth 1 and priority −1 —
the hard-coded `parentDepth = 0` of `crawlController.ts:754` ignores the
dispatched item's depth 1, where the claim requires
`depth = parentDepth + 1 = 2 > maxDepth` and hence rejection. -/
theorem claim1_depth_not_carried :
    (runOps rtFalse (initState 0) (c1trace.take 5)).pendingQueue.map
        (fun q => (q.url, q.depth, q.priority)) = [("https://a.test/x", 1, -1)] ∧
    (stepR rtFalse (runOps rtFalse (initState 0) (c1trace.take 5))
        (Op.requestWork (some 1) 200000)).2.urls.map (fun w => (w.url, w.depth)) =
      [("https://a.test/x", 1)] ∧
    (crawlBehaviorOf (runOps rtFalse (initState 0) c1trace)).maxDepth = 1 ∧
    (runOps rtFalse (initState 0) c1trace).pendingQueue.map
        (fun q => (q.url, q.depth, q.priority)) =
      [("https://a.test/x/child", 1, -1)] :=
  ⟨by with_unfolding_all rfl, by with_unfolding_all rfl,
   by with_unfolding_all rfl, by with_unfolding_all rfl⟩

/-- Claim C2, counterexample: with a `reset` between them, two
`request-work` calls of the same run both dispatch
`https://a.test/p1`, so the multiset union of all responses holds that
normalized URL twice. -/
theorem claim2_counterexample :
    allDispatched rtFalse (initState 0) c2trace =
      ["https://a.test/p1", "https://a.test/p1"] ∧
    ¬ (allDispatched rtFalse (initState 0) c2trace).Nodup :=
  ⟨by with_unfolding_all rfl,
   of_decide_eq_true (by with_unfolding_all rfl)⟩

/-- Claim C3, counterexample: one seeded URL reported twice (the handler
never checks that a report matches an outstanding dispatch) drives
`urlsFetched` to 2 while `urlsQueued` stays 1, violating
`urlsQueued ≥ urlsFetched + urlsFailed`. -/
theorem claim3_counterexample :
    (runOps rtFalse (initState 0) c3trace).runState.stats.urlsFetched = 2 ∧
    (runOps rtFalse (initState 0) c3trace).runState.stats.urlsFailed = 0 ∧
    (runOps rtFalse (initState 0) c3trace).runState.stats.urlsQueued = 1 ∧
    ¬ ((runOps rtFalse (initState 0) c3trace).runState.stats.urlsFetched +
        (runOps rtFalse (initState 0) c3trace).runState.stats.urlsFailed ≤
        (runOps rtFalse (initState 0) c3trace).runState.stats.urlsQueued) :=
  ⟨by with_unfolding_all rfl, by with_unfolding_all rfl,
   by with_unfolding_all rfl,
   of_decide_eq_true (by with_unfolding_all rfl)⟩

/-- Claim C4, counterexample: `start` on a running run is rejected with
`RUN_ALREADY_RUNNING` instead of succeeding idempotently. -/
theorem claim4_counterexample :
    (runOps rtFalse (initState 0) [Op.start 1000]).runState.status =
      RunStatus.running ∧
    (handleStart (runOps rtFalse (initState 0) [Op.start 1000]) 2000).2.success =
      false ∧
    (handleStart (runOps rtFalse (initState 0) [Op.start 1000]) 2000).2.errorCode =
      some "RUN_ALREADY_RUNNING" :=
  ⟨by with_unfolding_all rfl, by with_unfolding_all rfl,
   by with_unfolding_all rfl⟩

/-- Claim C4, amended: `start` succeeds (moving the run to `running`)
from `pending`, `paused` and `failed`; it is rejected with
`RUN_ALREADY_RUNNING` from `running` and with `RUN_COMPLETED` from
`completed` and `cancelled`. -/
theorem claim4_start_transitions (s : CState) (now : ℚ) :
    (handleStart s now).2 =
      (match s.runState.status with
       | RunStatus.running => errResp "RUN_ALREADY_RUNNING"
       | RunStatus.completed => errResp "RUN_COMPLETED"
       | RunStatus.cancelled => errResp "RUN_COMPLETED"
       | _ => okResp) ∧
    (handleStart s now).1.runState.status =
      (match s.runState.status with
       | RunStatus.running => RunStatus.running
       | RunStatus.completed => RunStatus.completed
       | RunStatus.cancelled => RunStatus.cancelled
       | _ => RunStatus.running) := by
  cases h : s.runState.status <;> simp [handleStart, h]

/-- Claim C5, counterexample: `cancel` on a `completed` run succeeds and
moves the status to `cancelled`, so the terminal status is not absorbing
and `cancel` does not fail from a terminal state. -/
theorem claim5_counterexample :
    completedState.runState.status = RunStatus.completed ∧
    (handleCancel completedState 3000).2.success = true ∧
    (handleCancel completedState 3000).1.runState.status = RunStatus.cancelled :=
  ⟨by with_unfolding_all rfl, by with_unfolding_all rfl,
   by with_unfolding_all rfl⟩

/-- Claim C7, counterexample: with `globalRateLimitPerMinute = 1` and the
trailing 60-second window already holding one fetch, `request-work` still
dispatches `https://b.test/p` and removes it from the frontier — the
source never consults the limit and keeps no window. -/
theorem claim7_counterexample :
    (rateLimitingOf c7state).globalRateLimitPerMinute = 1 ∧
    fetchesInWindow (fetchEvents rtFalse (initState 0) c7trace) 20000 = 1 ∧
    (handleRequestWork c7state (some 1) 20000).2.urls.map (fun w => w.url) =
      ["https://b.test/p"] ∧
    c7state.pendingQueue.length = 1 ∧
    (handleRequestWork c7state (some 1) 20000).1.pendingQueue.length = 0 :=
  ⟨by with_unfolding_all rfl, by with_unfolding_all rfl,
   by with_unfolding_all rfl, by with_unfolding_all rfl,
   by with_unfolding_all rfl⟩

/-- Claim C8, counterexample: `ftp://a.test/x` has a non-http(s) scheme
(`isValidUrl` is false), yet `handleSeed` admits it to the frontier —
the handler never checks the scheme, only that a hostname exists. -/
theorem claim8_counterexample :
    isValidUrl "ftp://a.test/x" = false ∧
    (handleSeed rtFalse (initState 0) (seedOf ["ftp://a.test/x"]) 1000).2.added = 1 ∧
    (handleSeed rtFalse (initState 0) (seedOf ["ftp://a.test/x"]) 1000).1.pendingQueue.map
      (fun q => q.url) = ["ftp://a.test/x"] :=
  ⟨by with_unfolding_all rfl, by with_unfolding_all rfl,
   by with_unfolding_all rfl⟩

end Crawler


namespace Crawler
set_option maxRecDepth 16000

theorem reportPhase1_of_missing (s : CState) (r : ResultReport) (now : ℚ)
    (h : ∀ d, getDomain r.url = some d → dsGet s.domainStates d = none) :
    reportPhase1 s r now = s := by
  unfold reportPhase1
  by_cases h1 : jsFalsyStr (getDomain r.url) = true
  · rw [if_pos h1]
  · rw [if_neg h1]
    cases hd : getDomain r.url with
    | none => exact absurd (by rw [hd]; rfl) h1
    | some d =>
      have hnone := h d hd
      simp only [Option.getD_some, hnone]

/-- Claim C10 (confirmed): a result report whose URL has no tracked
domain state still succeeds, and it leaves the fetched/failed counters,
the response-time and byte statistics, the recent-error list, and every
existing domain-state entry unchanged. -/
theorem claim10_missing_domain_frame (rt : String → String → Bool) (s : CState)
    (r : ResultReport) (now : ℚ)
    (h : ∀ d, getDomain r.url = some d → dsGet s.domainStates d = none) :
    (handleReportResult rt s r now).2.success = true ∧
    (handleReportResult rt s r now).1.runState.stats.urlsFetched =
      s.runState.stats.urlsFetched ∧
    (handleReportResult rt s r now).1.runState.stats.urlsFailed =
      s.runState.stats.urlsFailed ∧
    (handleReportResult rt s r now).1.runState.stats.avgResponseTimeMs =
      s.runState.stats.avgResponseTimeMs ∧
    (handleReportResult rt s r now).1.runState.stats.bytesDownloaded =
      s.runState.stats.bytesDownloaded ∧
    (handleReportResult rt s r now).1.recentErrors = s.recentErrors ∧
    (∀ k v, dsGet s.domainStates k = some v →
      dsGet (handleReportResult rt s r now).1.domainStates k = some v) := by
  have h1 := reportPhase1_of_missing s r now h
  have e1 : (handleReportResult rt s r now).1 = reportPhase3 (reportPhase2 rt s r now) now := by
    unfold handleReportResult
    rw [h1]
  obtain ⟨new, q1, q2, q3, q4, q5, q6, q7, q8, q9, q10, q11, q12, q13⟩ :=
    reportPhase2_spec rt s r now
  obtain ⟨t1, t2, t3, t4, t5, t6, t7, t8, t9, t10, t11⟩ :=
    reportPhase3_frame (reportPhase2 rt s r now) now
  refine ⟨rfl, ?_, ?_, ?_, ?_, ?_, ?_⟩
  · rw [e1, t8, q6]
  · rw [e1, t9, q7]
  · rw [e1, t10, q8]
  · rw [e1, t11, q9]
  · rw [e1, t4, q3]
  · intro k v hv
    rw [e1, t3]
    exact q13 k v hv

theorem reportFailure_iff (r : ResultReport) :
    reportFailure r = true ↔ ((∃ e, r.error = some e ∧ e ≠ "") ∨ 400 ≤ r.status) := by
  unfold reportFailure
  cases herr : r.error with
  | none =>
    simp [jsFalsyStr]
    intro hh h0
    rw [h0] at hh
    norm_num at hh
  | some e =>
    simp [jsFalsyStr]
    by_cases he : e = ""
    · simp [he]
      intro hh h0
      rw [h0] at hh
      norm_num at hh
    · simp [he]


theorem reportPhase1_domain_update (s : CState) (r : ResultReport) (now : ℚ)
    (d : String) (st : DomainState)
    (hd : getDomain r.url = some d) (hne : d ≠ "")
    (hst : dsGet s.domainStates d = some st) :
    (reportFailure r = true →
      dsGet (reportPhase1 s r now).domainStates d =
        some { st with errorCount := st.errorCount + 1,
                       backoffUntil := now + backoffDur (rateLimitingOf s) (st.errorCount + 1) }) ∧
    (reportFailure r = false →
      ∃ st2, dsGet (reportPhase1 s r now).domainStates d = some st2 ∧
        st2.errorCount = 0 ∧ st2.backoffUntil = 0 ∧
        st2.successCount = st.successCount + 1) := by
  have hfalsy : ¬ jsFalsyStr (getDomain r.url) = true := by
    rw [hd]
    simp [jsFalsyStr, hne]
  unfold reportPhase1
  rw [if_neg hfalsy, hd]
  simp only [Option.getD_some, hst]
  constructor
  · intro hf
    rw [if_pos hf]
    simp only [dsGet_dsSet_self]
    unfold backoffDur
    rfl
  · intro hf
    rw [if_neg (by simp [hf])]
    exact ⟨_, dsGet_dsSet_self _ _ _, rfl, rfl, rfl⟩

theorem handleSeed_status (rt : String → String → Bool) (s : CState)
    (p : SeedPayload) (now : ℚ) :
    (handleSeed rt s p now).1.runState.status = s.runState.status := by
  simp [handleSeed]

theorem handleConfigure_status (s : CState) (c : CrawlConfig) :
    (handleConfigure s c).1.runState.status = s.runState.status := by
  simp [handleConfigure]

theorem handleCron_status (s : CState) (now : ℚ) :
    (handleCron s now).1.runState.status = s.runState.status := by
  simp [handleCron]

theorem handleReportResult_status (rt : String → String → Bool) (s : CState)
    (r : ResultReport) (now : ℚ) :
    (handleReportResult rt s r now).1.runState.status = s.runState.status := by
  have e1 : (handleReportResult rt s r now).1 =
      reportPhase3 (reportPhase2 rt (reportPhase1 s r now) r now) now := rfl
  obtain ⟨new, q1, q2, q3, q4, _⟩ := reportPhase2_spec rt (reportPhase1 s r now) r now
  have t5 := (reportPhase3_frame (reportPhase2 rt (reportPhase1 s r now) r now) now).2.2.2.2.1
  have p1 := (reportPhase1_frame s r now).2.2.1
  rw [e1, t5, q4, p1]

theorem handleRequestWork_state_of_ne (s : CState) (b : Option ℚ) (now : ℚ)
    (h : s.runState.status ≠ RunStatus.running) :
    (handleRequestWork s b now).1 = s := by
  unfold handleRequestWork
  rw [if_pos h]

theorem handlePause_state_of_ne (s : CState) (now : ℚ)
    (h : s.runState.status ≠ RunStatus.running) :
    (handlePause s now).1 = s := by
  unfold handlePause
  rw [if_pos h]

theorem handleResume_state_of_ne (s : CState) (now : ℚ)
    (h : s.runState.status ≠ RunStatus.paused) :
    (handleResume s now).1 = s := by
  unfold handleResume
  rw [if_pos h]

theorem handleStart_state_of_finished (s : CState) (now : ℚ)
    (h : s.runState.status = RunStatus.completed ∨ s.runState.status = RunStatus.cancelled) :
    (handleStart s now).1 = s := by
  unfold handleStart
  rw [if_neg (by rcases h with h | h <;> simp [h]), if_pos h]



/-- Claim C5 (amended): once a run is `completed`, `cancelled` or
`failed`, every operation other than `reset`, `cancel` and `start` leaves
the status unchanged; and from `completed` or `cancelled`, `start` also
leaves it unchanged (it is rejected). -/
theorem claim5_terminal_absorbing (rt : String → String → Bool) (s : CState) :
    (∀ op : Op, (∀ t, op ≠ Op.reset t) → (∀ t, op ≠ Op.cancel t) → (∀ t, op ≠ Op.start t) →
      (s.runState.status = RunStatus.completed ∨ s.runState.status = RunStatus.cancelled ∨
        s.runState.status = RunStatus.failed) →
      (step rt s op).runState.status = s.runState.status) ∧
    (∀ t : ℚ,
      (s.runState.status = RunStatus.completed ∨ s.runState.status = RunStatus.cancelled) →
      (step rt s (Op.start t)).runState.status = s.runState.status) := by
  constructor
  · intro op hnr hnc hns hterm
    have hnrun : s.runState.status ≠ RunStatus.running := by
      rcases hterm with h | h | h <;> simp [h]
    have hnpaused : s.runState.status ≠ RunStatus.paused := by
      rcases hterm with h | h | h <;> simp [h]
    cases op with
    | seed p t => exact handleSeed_status rt s p t
    | configure c => exact handleConfigure_status s c
    | start t => exact absurd rfl (hns t)
    | pause t =>
      show (handlePause s t).1.runState.status = s.runState.status
      rw [handlePause_state_of_ne s t hnrun]
    | resume t =>
      show (handleResume s t).1.runState.status = s.runState.status
      rw [handleResume_state_of_ne s t hnpaused]
    | cancel t => exact absurd rfl (hnc t)
    | reset t => exact absurd rfl (hnr t)
    | requestWork b t =>
      show (handleRequestWork s b t).1.runState.status = s.runState.status
      rw [handleRequestWork_state_of_ne s b t hnrun]
    | reportResult r t => exact handleReportResult_status rt s r t
    | cron t => exact handleCron_status s t
  · intro t h2
    show (handleStart s t).1.runState.status = s.runState.status
    rw [handleStart_state_of_finished s t h2]

/-- Witness for Claim C5 at the concrete completed state. -/
theorem claim5_terminal_absorbing_witness :
    (step rtFalse completedState (Op.cron 4000)).runState.status =
      completedState.runState.status ∧
    (step rtFalse completedState (Op.start 4000)).runState.status =
      completedState.runState.status :=
  ⟨(claim5_terminal_absorbing rtFalse completedState).1 (Op.cron 4000)
      (fun t h => nomatch h) (fun t h => nomatch h) (fun t h => nomatch h)
      (Or.inl (by with_unfolding_all rfl)),
   (claim5_terminal_absorbing rtFalse completedState).2 4000
      (Or.inl (by with_unfolding_all rfl))⟩

/-- Claim C6 (confirmed): a failed report (a non-empty error string or a
status of at least 400) increments the domain error count and sets
`backoffUntil` to `now` plus the exponential backoff
`min(minDomainDelayMs * errorBackoffMultiplier ^ errorCount, maxDomainDelayMs)`;
a successful report resets the error count and the backoff; and the
backoff duration is monotone in the error count while the multiplier is
at least one. -/
theorem claim6_backoff_update (rt : String → String → Bool) (s : CState)
    (r : ResultReport) (now : ℚ) (d : String) (st : DomainState)
    (hd : getDomain r.url = some d) (hne : d ≠ "")
    (hst : dsGet s.domainStates d = some st) :
    (((∃ e, r.error = some e ∧ e ≠ "") ∨ 400 ≤ r.status) →
      dsGet (handleReportResult rt s r now).1.domainStates d =
        some { st with errorCount := st.errorCount + 1,
                       backoffUntil := now + backoffDur (rateLimitingOf s) (st.errorCount + 1) }) ∧
    (¬ ((∃ e, r.error = some e ∧ e ≠ "") ∨ 400 ≤ r.status) →
      ∃ st2, dsGet (handleReportResult rt s r now).1.domainStates d = some st2 ∧
        st2.errorCount = 0 ∧ st2.backoffUntil = 0 ∧
        st2.successCount = st.successCount + 1) ∧
    (0 ≤ (rateLimitingOf s).minDomainDelayMs →
      1 ≤ (rateLimitingOf s).errorBackoffMultiplier →
      ∀ n1 n2 : ℕ, n1 ≤ n2 →
        backoffDur (rateLimitingOf s) n1 ≤ backoffDur (rateLimitingOf s) n2 ∧
        backoffDur (rateLimitingOf s) n2 ≤ (rateLimitingOf s).maxDomainDelayMs) := by
  obtain ⟨hfail, hsucc⟩ := reportPhase1_domain_update s r now d st hd hne hst
  have e1 : (handleReportResult rt s r now).1 =
      reportPhase3 (reportPhase2 rt (reportPhase1 s r now) r now) now := rfl
  obtain ⟨new, _, _, _, _, _, _, _, _, _, _, _, _, hq13⟩ :=
    reportPhase2_spec rt (reportPhase1 s r now) r now
  have t3 := (reportPhase3_frame (reportPhase2 rt (reportPhase1 s r now) r now) now).2.2.1
  refine ⟨?_, ?_, ?_⟩
  · intro hc
    have hf : reportFailure r = true := (reportFailure_iff r).mpr hc
    rw [e1, t3]
    exact hq13 _ _ (hfail hf)
  · intro hc
    have hf : reportFailure r = false := by
      cases hbf : reportFailure r with
      | false => rfl
      | true => exact absurd ((reportFailure_iff r).mp hbf) hc
    obtain ⟨st2, hget, he, hb, hs⟩ := hsucc hf
    refine ⟨st2, ?_, he, hb, hs⟩
    rw [e1, t3]
    exact hq13 _ _ hget
  · intro hmin hmult n1 n2 hle
    constructor
    · unfold backoffDur
      refine min_le_min ?_ le_rfl
      exact mul_le_mul_of_nonneg_left (pow_le_pow_right₀ hmult hle) hmin
    · exact min_le_right _ _

/-- Witness for Claim C6: a 500 report against the seeded state. -/
theorem claim6_backoff_update_witness :
    dsGet (handleReportResult rtFalse seededA
        (reportOf "https://a.test/p1" 500 none) 5000).1.domainStates "a.test" =
      some { freshDomainState with
             errorCount := 1
             backoffUntil := 5000 + backoffDur (rateLimitingOf seededA) 1 } :=
  (claim6_backoff_update rtFalse seededA (reportOf "https://a.test/p1" 500 none) 5000
    "a.test" freshDomainState (by with_unfolding_all rfl) (by decide)
    (by with_unfolding_all rfl)).1 (Or.inr (by norm_num [reportOf]))


/-- Witness for Claim C10: a report for an unseeded domain against the
one-domain seeded state. -/
theorem claim10_missing_domain_frame_witness :
    (handleReportResult rtFalse seededA
        (reportOf "https://b.test/x" 200 none) 2000).1.runState.stats.urlsFetched =
      seededA.runState.stats.urlsFetched ∧
    (handleReportResult rtFalse seededA
        (reportOf "https://b.test/x" 200 none) 2000).1.recentErrors =
      seededA.recentErrors :=
  ⟨(claim10_missing_domain_frame rtFalse seededA (reportOf "https://b.test/x" 200 none) 2000
      (by
        intro d hd
        rw [show getDomain (reportOf "https://b.test/x" 200 none).url = some "b.test" from
          by with_unfolding_all rfl] at hd
        injection hd with hd2
        subst hd2
        with_unfolding_all rfl)).2.1,
   (claim10_missing_domain_frame rtFalse seededA (reportOf "https://b.test/x" 200 none) 2000
      (by
        intro d hd
        rw [show getDomain (reportOf "https://b.test/x" 200 none).url = some "b.test" from
          by with_unfolding_all rfl] at hd
        injection hd with hd2
        subst hd2
        with_unfolding_all rfl)).2.2.2.2.2.1⟩

theorem requestWork_urls_eq (s : CState) (b : Option ℚ) (now : ℚ) :
    (handleRequestWork s b now).2.urls = (requestWorkTaken s b now).map mkWorkItem := by
  unfold handleRequestWork requestWorkTaken
  by_cases h1 : s.runState.status ≠ RunStatus.running
  · rw [if_pos h1, if_pos h1]
    simp [okResp]
  · rw [if_neg h1, if_neg h1]
    by_cases h2 : 0 < (crawlBehaviorOf s).maxPagesPerRun ∧
        (crawlBehaviorOf s).maxPagesPerRun ≤ (s.runState.stats.urlsFetched : ℚ)
    · rw [if_pos h2, if_pos h2]
      simp [okResp]
    · rw [if_neg h2, if_neg h2]

/-- Claim C9 (confirmed): `request-work` hands out the batch sorted by
descending priority with ties broken by older `addedAt`, and with
pairwise distinct domains. -/
theorem claim9_batch_order (s : CState) (b : Option ℚ) (now : ℚ)
    (hdom : ∀ q ∈ s.pendingQueue, getDomain q.url = some q.domain) :
    (handleRequestWork s b now).2.urls = (requestWorkTaken s b now).map mkWorkItem ∧
    List.Sorted RankLe (requestWorkTaken s b now) ∧
    List.Pairwise (fun a b : QueuedUrl => getDomain a.url ≠ getDomain b.url)
      (requestWorkTaken s b now) := by
  refine ⟨requestWork_urls_eq s b now, ?_, ?_⟩
  all_goals unfold requestWorkTaken
  all_goals by_cases h1 : s.runState.status ≠ RunStatus.running
  case pos => rw [if_pos h1]; exact List.sorted_nil
  case neg =>
    rw [if_neg h1]
    by_cases h2 : 0 < (crawlBehaviorOf s).maxPagesPerRun ∧
        (crawlBehaviorOf s).maxPagesPerRun ≤ (s.runState.stats.urlsFetched : ℚ)
    · rw [if_pos h2]; exact List.sorted_nil
    · rw [if_neg h2]
      obtain ⟨i1, _, _, _, _, _⟩ := takeBatch_spec
        (min (jsOrNum b (crawlBehaviorOf s).defaultBatchSize) 100) now
        (rateLimitingOf s).minDomainDelayMs (sortQueue s.pendingQueue) 0 [] s.visitedUrls
        s.domainStates
      exact List.Pairwise.sublist i1 (List.sorted_insertionSort RankLe s.pendingQueue)
  case pos => rw [if_pos h1]; exact List.Pairwise.nil
  case neg =>
    rw [if_neg h1]
    by_cases h2 : 0 < (crawlBehaviorOf s).maxPagesPerRun ∧
        (crawlBehaviorOf s).maxPagesPerRun ≤ (s.runState.stats.urlsFetched : ℚ)
    · rw [if_pos h2]; exact List.Pairwise.nil
    · rw [if_neg h2]
      obtain ⟨i1, _, _, _, i5, _⟩ := takeBatch_spec
        (min (jsOrNum b (crawlBehaviorOf s).defaultBatchSize) 100) now
        (rateLimitingOf s).minDomainDelayMs (sortQueue s.pendingQueue) 0 [] s.visitedUrls
        s.domainStates
      have hmem : ∀ t ∈ (takeBatch (min (jsOrNum b (crawlBehaviorOf s).defaultBatchSize) 100)
          now (rateLimitingOf s).minDomainDelayMs (sortQueue s.pendingQueue) 0 []
          s.visitedUrls s.domainStates).taken, t ∈ s.pendingQueue := by
        intro t ht
        exact (List.perm_insertionSort RankLe s.pendingQueue).subset (i1.subset ht)
      have hpair := List.pairwise_map.mp i5
      refine hpair.imp_of_mem ?_
      intro a c ha hc hne
      rw [hdom a (hmem a ha), hdom c (hmem c hc)]
      simp
      exact hne


/-- Witness for Claim C9 at the running two-domain state. -/
theorem claim9_batch_order_witness :
    List.Sorted RankLe (requestWorkTaken runningAB (some 10) 5000) ∧
    List.Pairwise (fun a b : QueuedUrl => getDomain a.url ≠ getDomain b.url)
      (requestWorkTaken runningAB (some 10) 5000) :=
  ⟨(claim9_batch_order runningAB (some 10) 5000
      (of_decide_eq_true (by with_unfolding_all rfl))).2.1,
   (claim9_batch_order runningAB (some 10) 5000
      (of_decide_eq_true (by with_unfolding_all rfl))).2.2⟩

/-- Claim C8 (amended): a seed URL whose normalised form has no hostname
(`new URL` fails) is never admitted — every entry `handleSeed` appends to
the frontier has a hostname.  The scheme, by contrast, is never checked
(see the counterexample). -/
theorem claim8_invalid_url_rejected (rt : String → String → Bool) (s : CState) (p : SeedPayload)
    (now : ℚ) :
    ∃ new : List QueuedUrl,
      (handleSeed rt s p now).1.pendingQueue = s.pendingQueue ++ new ∧
      ∀ it ∈ new, jsFalsyStr (getDomain it.url) = false := by
  obtain ⟨new, h1, _, h3, _, _⟩ := seedLoop_spec rt (domainScopeOf s)
    (crawlBehaviorOf s).maxQueueSize s.visitedUrls (p.depth.getD 0) (p.priority.getD 0)
    now p.urls s.pendingQueue s.domainStates 0 0
  refine ⟨new, ?_, fun it ht => (h3 it ht).1⟩
  simpa [handleSeed] using h1

theorem setGlobalRate_fields (s : CState) (g : ℚ) :
    (setGlobalRate s g).pendingQueue = s.pendingQueue ∧
    (setGlobalRate s g).visitedUrls = s.visitedUrls ∧
    (setGlobalRate s g).domainStates = s.domainStates ∧
    (setGlobalRate s g).recentErrors = s.recentErrors ∧
    (setGlobalRate s g).runState.status = s.runState.status ∧
    (setGlobalRate s g).runState.stats = s.runState.stats ∧
    (setGlobalRate s g).runState.progress = s.runState.progress ∧
    crawlBehaviorOf (setGlobalRate s g) = crawlBehaviorOf s ∧
    (rateLimitingOf (setGlobalRate s g)).minDomainDelayMs =
      (rateLimitingOf s).minDomainDelayMs := by
  cases hc : s.runState.config <;>
    simp [setGlobalRate, hc, crawlBehaviorOf, rateLimitingOf]

/-- Claim C7 (amended): the `globalRateLimitPerMinute` setting is ignored
by work dispatch — changing it changes neither the response nor any
dispatch-relevant component of the state. -/
theorem claim7_rate_limit_ignored (s : CState) (g : ℚ) (b : Option ℚ) (now : ℚ) :
    (handleRequestWork (setGlobalRate s g) b now).2 = (handleRequestWork s b now).2 ∧
    (handleRequestWork (setGlobalRate s g) b now).1.pendingQueue =
      (handleRequestWork s b now).1.pendingQueue ∧
    (handleRequestWork (setGlobalRate s g) b now).1.visitedUrls =
      (handleRequestWork s b now).1.visitedUrls ∧
    (handleRequestWork (setGlobalRate s g) b now).1.domainStates =
      (handleRequestWork s b now).1.domainStates ∧
    (handleRequestWork (setGlobalRate s g) b now).1.recentErrors =
      (handleRequestWork s b now).1.recentErrors ∧
    (handleRequestWork (setGlobalRate s g) b now).1.runState.status =
      (handleRequestWork s b now).1.runState.status ∧
    (handleRequestWork (setGlobalRate s g) b now).1.runState.stats =
      (handleRequestWork s b now).1.runState.stats := by
  obtain ⟨f1, f2, f3, f4, f5, f6, f7, f8, f9⟩ := setGlobalRate_fields s g
  unfold handleRequestWork
  by_cases h1 : s.runState.status ≠ RunStatus.running
  · have h1a : (setGlobalRate s g).runState.status ≠ RunStatus.running := by
      rw [f5]; exact h1
    rw [if_pos h1, if_pos h1a]
    exact ⟨by simp [f1], f1, f2, f3, f4, f5, f6⟩
  · have h1a : ¬ (setGlobalRate s g).runState.status ≠ RunStatus.running := by
      rw [f5]; exact h1
    rw [if_neg h1, if_neg h1a]
    by_cases h2 : 0 < (crawlBehaviorOf s).maxPagesPerRun ∧
        (crawlBehaviorOf s).maxPagesPerRun ≤ (s.runState.stats.urlsFetched : ℚ)
    · have h2a : 0 < (crawlBehaviorOf (setGlobalRate s g)).maxPagesPerRun ∧
          (crawlBehaviorOf (setGlobalRate s g)).maxPagesPerRun ≤
            ((setGlobalRate s g).runState.stats.urlsFetched : ℚ) := by
        rw [f8, f6]; exact h2
      rw [if_pos h2, if_pos h2a]
      exact ⟨rfl, f1, f2, f3, f4, by simp [f5], by simp [f6]⟩
    · have h2a : ¬ (0 < (crawlBehaviorOf (setGlobalRate s g)).maxPagesPerRun ∧
          (crawlBehaviorOf (setGlobalRate s g)).maxPagesPerRun ≤
            ((setGlobalRate s g).runState.stats.urlsFetched : ℚ)) := by
        rw [f8, f6]; exact h2
      rw [if_neg h2, if_neg h2a]
      rw [f1, f2, f3, f8, f9]
      constructor
      · simp [okResp]
      · refine ⟨by simp, by simp, by simp, by simp [f4], ?_, ?_⟩
        · dsimp only
          split <;> simp [f5, f6]
        · dsimp only
          split <;> simp [f5, f6]


theorem noDouble_of_frame {s s2 : CState} {disp : List String}
    (hqe : s2.pendingQueue = s.pendingQueue)
    (hve : ∀ h ∈ s.visitedUrls, h ∈ s2.visitedUrls)
    (h : NoDoubleDispatchInv s disp) : NoDoubleDispatchInv s2 disp := by
  obtain ⟨hq, hd, hdq⟩ := h
  refine ⟨?_, hd, ?_⟩
  · unfold queueUrls
    rw [hqe]
    exact hq
  · intro u hu
    refine ⟨hve _ (hdq u hu).1, ?_⟩
    unfold queueUrls
    rw [hqe]
    exact (hdq u hu).2

theorem noDouble_of_extend {s s2 : CState} {disp : List String} (new : List QueuedUrl)
    (hqe : s2.pendingQueue = s.pendingQueue ++ new)
    (hve : s2.visitedUrls = s.visitedUrls)
    (hnew : ∀ it ∈ new, simpleHash it.url ∉ s.visitedUrls)
    (hnodup : (queueUrls s).Nodup → ((s.pendingQueue ++ new).map (fun x => x.url)).Nodup)
    (h : NoDoubleDispatchInv s disp) : NoDoubleDispatchInv s2 disp := by
  obtain ⟨hq, hd, hdq⟩ := h
  refine ⟨?_, hd, ?_⟩
  · unfold queueUrls
    rw [hqe]
    exact hnodup hq
  · intro u hu
    refine ⟨by rw [hve]; exact (hdq u hu).1, ?_⟩
    unfold queueUrls
    rw [hqe]
    intro hmem
    rw [List.map_append, List.mem_append] at hmem
    rcases hmem with hm | hm
    · exact (hdq u hu).2 hm
    · rcases List.mem_map.mp hm with ⟨it, hit, hitu⟩
      exact hnew it hit (hitu ▸ (hdq u hu).1)

theorem noDouble_requestWork (s : CState) (b : Option ℚ) (now : ℚ)
    (disp : List String) (h : NoDoubleDispatchInv s disp) :
    NoDoubleDispatchInv (handleRequestWork s b now).1
      (disp ++ ((handleRequestWork s b now).2.urls.map (fun w => w.url))) := by
  obtain ⟨hq, hd, hdq⟩ := h
  have hq2 : (s.pendingQueue.map (fun x => x.url)).Nodup := hq
  unfold handleRequestWork
  by_cases h1 : s.runState.status ≠ RunStatus.running
  · rw [if_pos h1]
    have he : ({ okResp with queueSize := s.pendingQueue.length } : Resp).urls.map
        (fun w => w.url) = [] := rfl
    rw [he, List.append_nil]
    exact ⟨hq, hd, hdq⟩
  · rw [if_neg h1]
    by_cases h2 : 0 < (crawlBehaviorOf s).maxPagesPerRun ∧
        (crawlBehaviorOf s).maxPagesPerRun ≤ (s.runState.stats.urlsFetched : ℚ)
    · rw [if_pos h2]
      have he : ({ okResp with queueSize := 0 } : Resp).urls.map (fun w => w.url) = [] := rfl
      rw [he, List.append_nil]
      exact noDouble_of_frame rfl (fun x hx => hx) ⟨hq, hd, hdq⟩
    · rw [if_neg h2]
      dsimp only
      obtain ⟨i1, i2, i3, i4, i5, i6⟩ := takeBatch_spec
        (min (jsOrNum b (crawlBehaviorOf s).defaultBatchSize) 100) now
        (rateLimitingOf s).minDomainDelayMs (sortQueue s.pendingQueue) 0 []
        s.visitedUrls s.domainStates
      have sortPerm := List.perm_insertionSort RankLe s.pendingQueue
      have hsortN : ((sortQueue s.pendingQueue).map (fun x => x.url)).Nodup :=
        ((sortPerm.map (fun x => x.url)).nodup_iff).mpr hq2
      have htrN := ((i2.map (fun x => x.url)).nodup_iff).mpr hsortN
      rw [List.map_append] at htrN
      obtain ⟨hTn, hRn, hdisj⟩ := List.nodup_append.mp htrN
      have htq : ∀ u, u ∈ (takeBatch (min (jsOrNum b (crawlBehaviorOf s).defaultBatchSize) 100)
          now (rateLimitingOf s).minDomainDelayMs (sortQueue s.pendingQueue) 0 []
          s.visitedUrls s.domainStates).taken.map (fun x => x.url) → u ∈ queueUrls s := by
        intro u hu
        rcases List.mem_map.mp hu with ⟨t, ht, rfl⟩
        exact List.mem_map_of_mem _ (sortPerm.subset (i1.subset ht))
      have hrq : ∀ u, u ∈ (takeBatch (min (jsOrNum b (crawlBehaviorOf s).defaultBatchSize) 100)
          now (rateLimitingOf s).minDomainDelayMs (sortQueue s.pendingQueue) 0 []
          s.visitedUrls s.domainStates).remaining.map (fun x => x.url) → u ∈ queueUrls s := by
        intro u hu
        rcases List.mem_map.mp hu with ⟨t, ht, rfl⟩
        exact List.mem_map_of_mem _
          (sortPerm.subset (i2.subset (List.mem_append_right _ ht)))
      have hmaps : (((takeBatch (min (jsOrNum b (crawlBehaviorOf s).defaultBatchSize) 100)
          now (rateLimitingOf s).minDomainDelayMs (sortQueue s.pendingQueue) 0 []
          s.visitedUrls s.domainStates).taken.map mkWorkItem).map (fun w => w.url)) =
          (takeBatch (min (jsOrNum b (crawlBehaviorOf s).defaultBatchSize) 100)
            now (rateLimitingOf s).minDomainDelayMs (sortQueue s.pendingQueue) 0 []
            s.visitedUrls s.domainStates).taken.map (fun x => x.url) := by
        simp [mkWorkItem]
      rw [hmaps]
      refine ⟨hRn, ?_, ?_⟩
      · rw [List.nodup_append]
        exact ⟨hd, hTn, fun u hu hmem => (hdq u hu).2 (htq u hmem)⟩
      · intro u hu
        rw [List.mem_append] at hu
        rcases hu with hu | hu
        · exact ⟨i3 _ (hdq u hu).1, fun hmem => (hdq u hu).2 (hrq u hmem)⟩
        · rcases List.mem_map.mp hu with ⟨t, ht, rfl⟩
          exact ⟨i4 t ht, fun hmem => hdisj (List.mem_map_of_mem _ ht) hmem⟩


theorem handleStart_frame (s : CState) (now : ℚ) :
    (handleStart s now).1.pendingQueue = s.pendingQueue ∧
    (handleStart s now).1.visitedUrls = s.visitedUrls ∧
    (handleStart s now).2.urls = [] := by
  unfold handleStart
  split
  · exact ⟨rfl, rfl, rfl⟩
  · split
    · exact ⟨rfl, rfl, rfl⟩
    · exact ⟨rfl, rfl, rfl⟩

theorem handlePause_frame (s : CState) (now : ℚ) :
    (handlePause s now).1.pendingQueue = s.pendingQueue ∧
    (handlePause s now).1.visitedUrls = s.visitedUrls ∧
    (handlePause s now).2.urls = [] := by
  unfold handlePause
  split
  · exact ⟨rfl, rfl, rfl⟩
  · exact ⟨rfl, rfl, rfl⟩

theorem handleResume_frame (s : CState) (now : ℚ) :
    (handleResume s now).1.pendingQueue = s.pendingQueue ∧
    (handleResume s now).1.visitedUrls = s.visitedUrls ∧
    (handleResume s now).2.urls = [] := by
  unfold handleResume
  split
  · exact ⟨rfl, rfl, rfl⟩
  · exact ⟨rfl, rfl, rfl⟩

theorem noDouble_report (rt : String → String → Bool) (s : CState) (r : ResultReport)
    (now : ℚ) (disp : List String) (h : NoDoubleDispatchInv s disp) :
    NoDoubleDispatchInv (handleReportResult rt s r now).1 disp := by
  obtain ⟨p1q, p1v, -, -, -, -⟩ := reportPhase1_frame s r now
  have h1 : NoDoubleDispatchInv (reportPhase1 s r now) disp :=
    noDouble_of_frame p1q (fun x hx => by rw [p1v]; exact hx) h
  obtain ⟨new, q2, v2, -, -, -, -, -, -, -, -, hnew, hnodup, -⟩ :=
    reportPhase2_spec rt (reportPhase1 s r now) r now
  have h2 : NoDoubleDispatchInv (reportPhase2 rt (reportPhase1 s r now) r now) disp := by
    refine noDouble_of_extend new q2 ?_ ?_ hnodup h1
    · rw [v2]
    · intro it hit
      exact (hnew it hit).2
  obtain ⟨p3q, p3v, -, -, -, -, -, -, -, -, -⟩ :=
    reportPhase3_frame (reportPhase2 rt (reportPhase1 s r now) r now) now
  have h3 : NoDoubleDispatchInv
      (reportPhase3 (reportPhase2 rt (reportPhase1 s r now) r now) now) disp :=
    noDouble_of_frame p3q (fun x hx => by rw [p3v]; exact hx) h2
  exact h3

theorem noDouble_step (rt : String → String → Bool) (s : CState) (disp : List String)
    (op : Op) (hnr : isReset op = false) (h : NoDoubleDispatchInv s disp) :
    NoDoubleDispatchInv (stepR rt s op).1
      (disp ++ ((stepR rt s op).2.urls.map (fun w => w.url))) := by
  cases op with
  | seed p now =>
    have hu : (stepR rt s (Op.seed p now)).2.urls = [] := rfl
    rw [hu, List.map_nil, List.append_nil]
    obtain ⟨new, h1, h2, h3, h4, h5⟩ := seedLoop_spec rt (domainScopeOf s)
      (crawlBehaviorOf s).maxQueueSize s.visitedUrls (p.depth.getD 0)
      (p.priority.getD 0) now p.urls s.pendingQueue s.domainStates 0 0
    exact noDouble_of_extend new h1 rfl (fun it hit => (h3 it hit).2) h4 h
  | configure c =>
    have hu : (stepR rt s (Op.configure c)).2.urls = [] := rfl
    rw [hu, List.map_nil, List.append_nil]
    exact noDouble_of_frame rfl (fun x hx => hx) h
  | start now =>
    obtain ⟨f1, f2, f3⟩ := handleStart_frame s now
    have hu : (stepR rt s (Op.start now)).2.urls = [] := f3
    rw [hu, List.map_nil, List.append_nil]
    have h3 : NoDoubleDispatchInv (handleStart s now).1 disp :=
      noDouble_of_frame f1 (fun x hx => by rw [f2]; exact hx) h
    exact h3
  | pause now =>
    obtain ⟨f1, f2, f3⟩ := handlePause_frame s now
    have hu : (stepR rt s (Op.pause now)).2.urls = [] := f3
    rw [hu, List.map_nil, List.append_nil]
    have h3 : NoDoubleDispatchInv (handlePause s now).1 disp :=
      noDouble_of_frame f1 (fun x hx => by rw [f2]; exact hx) h
    exact h3
  | resume now =>
    obtain ⟨f1, f2, f3⟩ := handleResume_frame s now
    have hu : (stepR rt s (Op.resume now)).2.urls = [] := f3
    rw [hu, List.map_nil, List.append_nil]
    have h3 : NoDoubleDispatchInv (handleResume s now).1 disp :=
      noDouble_of_frame f1 (fun x hx => by rw [f2]; exact hx) h
    exact h3
  | cancel now =>
    have hu : (stepR rt s (Op.cancel now)).2.urls = [] := rfl
    rw [hu, List.map_nil, List.append_nil]
    exact noDouble_of_frame rfl (fun x hx => hx) h
  | reset now =>
    simp [isReset] at hnr
  | requestWork b now =>
    exact noDouble_requestWork s b now disp h
  | reportResult r now =>
    have hu : (stepR rt s (Op.reportResult r now)).2.urls = [] := rfl
    rw [hu, List.map_nil, List.append_nil]
    exact noDouble_report rt s r now disp h
  | cron now =>
    have hu : (stepR rt s (Op.cron now)).2.urls = [] := rfl
    rw [hu, List.map_nil, List.append_nil]
    exact noDouble_of_frame rfl (fun x hx => hx) h

theorem noDouble_run (rt : String → String → Bool) (ops : List Op) :
    ∀ (s : CState) (disp : List String), (∀ op ∈ ops, isReset op = false) →
    NoDoubleDispatchInv s disp →
    NoDoubleDispatchInv (ops.foldl (stepDisp rt) (s, disp)).1
      (ops.foldl (stepDisp rt) (s, disp)).2 := by
  induction ops with
  | nil =>
    intro s disp _ h
    exact h
  | cons op rest ih =>
    intro s disp hnr h
    have h2 := noDouble_step rt s disp op (hnr op (List.mem_cons_self op rest)) h
    exact ih (stepR rt s op).1 (disp ++ ((stepR rt s op).2.urls.map (fun w => w.url)))
      (fun o ho => hnr o (List.mem_cons_of_mem _ ho)) h2


theorem conserv_frame {s s2 : CState} {o : List String}
    (hq : s2.pendingQueue.length = s.pendingQueue.length)
    (hqd : s2.runState.stats.urlsQueued = s.runState.stats.urlsQueued)
    (hf : s2.runState.stats.urlsFetched = s.runState.stats.urlsFetched)
    (hfl : s2.runState.stats.urlsFailed = s.runState.stats.urlsFailed)
    (h : ConservationInv s o) : ConservationInv s2 o := by
  unfold ConservationInv at h ⊢
  omega

theorem handleSeed_conserv (rt : String → String → Bool) (s : CState)
    (p : SeedPayload) (now : ℚ) :
    ∃ n : ℕ,
      (handleSeed rt s p now).1.pendingQueue.length = s.pendingQueue.length + n ∧
      (handleSeed rt s p now).1.runState.stats.urlsQueued =
        s.runState.stats.urlsQueued + n ∧
      (handleSeed rt s p now).1.runState.stats.urlsFetched =
        s.runState.stats.urlsFetched ∧
      (handleSeed rt s p now).1.runState.stats.urlsFailed =
        s.runState.stats.urlsFailed := by
  obtain ⟨new, h1, h2, -, -, -⟩ := seedLoop_spec rt (domainScopeOf s)
    (crawlBehaviorOf s).maxQueueSize s.visitedUrls (p.depth.getD 0)
    (p.priority.getD 0) now p.urls s.pendingQueue s.domainStates 0 0
  refine ⟨new.length, ?_, ?_, rfl, rfl⟩
  · unfold handleSeed
    dsimp only
    rw [h1]
    simp
  · unfold handleSeed
    dsimp only
    rw [h2]
    omega

theorem handleRequestWork_conserv (s : CState) (b : Option ℚ) (now : ℚ) :
    (handleRequestWork s b now).1.pendingQueue.length +
      (handleRequestWork s b now).2.urls.length = s.pendingQueue.length ∧
    (handleRequestWork s b now).1.runState.stats.urlsQueued =
      s.runState.stats.urlsQueued ∧
    (handleRequestWork s b now).1.runState.stats.urlsFetched =
      s.runState.stats.urlsFetched ∧
    (handleRequestWork s b now).1.runState.stats.urlsFailed =
      s.runState.stats.urlsFailed := by
  unfold handleRequestWork
  by_cases h1 : s.runState.status ≠ RunStatus.running
  · rw [if_pos h1]
    exact ⟨rfl, rfl, rfl, rfl⟩
  · rw [if_neg h1]
    by_cases h2 : 0 < (crawlBehaviorOf s).maxPagesPerRun ∧
        (crawlBehaviorOf s).maxPagesPerRun ≤ (s.runState.stats.urlsFetched : ℚ)
    · rw [if_pos h2]
      exact ⟨rfl, rfl, rfl, rfl⟩
    · rw [if_neg h2]
      dsimp only
      obtain ⟨-, i2, -, -, -, -⟩ := takeBatch_spec
        (min (jsOrNum b (crawlBehaviorOf s).defaultBatchSize) 100) now
        (rateLimitingOf s).minDomainDelayMs (sortQueue s.pendingQueue) 0 []
        s.visitedUrls s.domainStates
      have hlen := i2.length_eq
      rw [List.length_append] at hlen
      have hsort := (List.perm_insertionSort RankLe s.pendingQueue).length_eq
      refine ⟨?_, ?_, ?_, ?_⟩
      · simp only [List.length_map]
        unfold sortQueue at hlen ⊢
        omega
      · split
        · rfl
        · rfl
      · split
        · rfl
        · rfl
      · split
        · rfl
        · rfl

theorem handleReportResult_conserv (rt : String → String → Bool) (s : CState)
    (r : ResultReport) (now : ℚ) :
    ∃ n : ℕ,
      (handleReportResult rt s r now).1.pendingQueue.length =
        s.pendingQueue.length + n ∧
      (handleReportResult rt s r now).1.runState.stats.urlsQueued =
        s.runState.stats.urlsQueued + n ∧
      (handleReportResult rt s r now).1.runState.stats.urlsFetched +
        (handleReportResult rt s r now).1.runState.stats.urlsFailed ≤
        s.runState.stats.urlsFetched + s.runState.stats.urlsFailed + 1 := by
  obtain ⟨p1q, -, -, -, p1qd, p1ff⟩ := reportPhase1_frame s r now
  obtain ⟨new, q2, -, -, -, -, f2, fl2, -, -, qd2, -, -, -⟩ :=
    reportPhase2_spec rt (reportPhase1 s r now) r now
  obtain ⟨p3q, -, -, -, -, -, p3qd, p3f, p3fl, -, -⟩ :=
    reportPhase3_frame (reportPhase2 rt (reportPhase1 s r now) r now) now
  refine ⟨new.length, ?_, ?_, ?_⟩
  · show (reportPhase3 (reportPhase2 rt (reportPhase1 s r now) r now) now).pendingQueue.length = _
    rw [p3q, q2, List.length_append, p1q]
  · show (reportPhase3 (reportPhase2 rt (reportPhase1 s r now) r now) now).runState.stats.urlsQueued = _
    rw [p3qd, qd2, p1qd]
  · show (reportPhase3 (reportPhase2 rt (reportPhase1 s r now) r now) now).runState.stats.urlsFetched +
      (reportPhase3 (reportPhase2 rt (reportPhase1 s r now) r now) now).runState.stats.urlsFailed ≤ _
    rw [p3f, p3fl, f2, fl2]
    exact p1ff

theorem conservation_step (rt : String → String → Bool) (s : CState) (o : List String)
    (op : Op)
    (hadm : admGuard o op = true)
    (h : ConservationInv s o) :
    ConservationInv (step rt s op) (nextOutstanding rt s o op) := by
  cases op with
  | seed p now =>
    obtain ⟨n, h1, h2, h3, h4⟩ := handleSeed_conserv rt s p now
    have hs : step rt s (Op.seed p now) = (handleSeed rt s p now).1 := rfl
    have hn : nextOutstanding rt s o (Op.seed p now) = o := rfl
    rw [hs, hn]
    unfold ConservationInv at h ⊢
    omega
  | configure c =>
    exact conserv_frame rfl rfl rfl rfl h
  | start now =>
    have hs : step rt s (Op.start now) = (handleStart s now).1 := rfl
    have hn : nextOutstanding rt s o (Op.start now) = o := rfl
    rw [hs, hn]
    unfold handleStart
    split
    · exact conserv_frame rfl rfl rfl rfl h
    · split
      · exact conserv_frame rfl rfl rfl rfl h
      · exact conserv_frame rfl rfl rfl rfl h
  | pause now =>
    have hs : step rt s (Op.pause now) = (handlePause s now).1 := rfl
    have hn : nextOutstanding rt s o (Op.pause now) = o := rfl
    rw [hs, hn]
    unfold handlePause
    split
    · exact conserv_frame rfl rfl rfl rfl h
    · exact conserv_frame rfl rfl rfl rfl h
  | resume now =>
    have hs : step rt s (Op.resume now) = (handleResume s now).1 := rfl
    have hn : nextOutstanding rt s o (Op.resume now) = o := rfl
    rw [hs, hn]
    unfold handleResume
    split
    · exact conserv_frame rfl rfl rfl rfl h
    · exact conserv_frame rfl rfl rfl rfl h
  | cancel now =>
    exact conserv_frame rfl rfl rfl rfl h
  | reset now =>
    exact Nat.le.refl
  | requestWork b now =>
    obtain ⟨h1, h2, h3, h4⟩ := handleRequestWork_conserv s b now
    have hs : step rt s (Op.requestWork b now) = (handleRequestWork s b now).1 := rfl
    have hn : nextOutstanding rt s o (Op.requestWork b now) =
        o ++ ((handleRequestWork s b now).2.urls.map (fun w => w.url)) := rfl
    rw [hs, hn]
    unfold ConservationInv at h ⊢
    rw [List.length_append, List.length_map]
    omega
  | reportResult r now =>
    obtain ⟨n, h1, h2, h3⟩ := handleReportResult_conserv rt s r now
    have hmem : r.url ∈ o := of_decide_eq_true hadm
    have hs : step rt s (Op.reportResult r now) = (handleReportResult rt s r now).1 := rfl
    have hn : nextOutstanding rt s o (Op.reportResult r now) = o.erase r.url := rfl
    rw [hs, hn]
    unfold ConservationInv at h ⊢
    rw [List.length_erase_of_mem hmem]
    have hpos : 0 < o.length := List.length_pos_of_mem hmem
    omega
  | cron now =>
    exact conserv_frame rfl rfl rfl rfl h

theorem conservation_run (rt : String → String → Bool) (ops : List Op) :
    ∀ (s : CState) (o : List String), admissible rt s o ops = true →
    ConservationInv s o →
    ∃ o2, ConservationInv (runOps rt s ops) o2 := by
  induction ops with
  | nil =>
    intro s o _ h
    exact ⟨o, h⟩
  | cons op rest ih =>
    intro s o hadm h
    have hadm2 : (admGuard o op &&
        admissible rt (step rt s op) (nextOutstanding rt s o op) rest) = true := hadm
    rw [Bool.and_eq_true] at hadm2
    exact ih (step rt s op) (nextOutstanding rt s o op) hadm2.2
      (conservation_step rt s o op hadm2.1 h)


/-- Claim C2 (amended): over any reset-free operation sequence started
from the initial state, the URLs handed out across all `request-work`
responses are pairwise distinct — no URL is ever dispatched twice. -/
theorem claim2_no_double_dispatch (rt : String → String → Bool) (now0 : ℚ)
    (ops : List Op) (hnr : ∀ op ∈ ops, isReset op = false) :
    (allDispatched rt (initState now0) ops).Nodup := by
  have h0 : NoDoubleDispatchInv (initState now0) [] :=
    ⟨List.nodup_nil, List.nodup_nil, fun u hu => absurd hu (List.not_mem_nil u)⟩
  exact (noDouble_run rt ops (initState now0) [] hnr h0).2.1

/-- Witness for Claim C2 at a concrete reset-free trace that dispatches
twice and follows a discovered link. -/
theorem claim2_no_double_dispatch_witness :
    (∀ op ∈ c2okTrace, isReset op = false) ∧
    (allDispatched rtFalse (initState 0) c2okTrace).Nodup :=
  ⟨of_decide_eq_true (by with_unfolding_all rfl),
   claim2_no_double_dispatch rtFalse 0 c2okTrace
     (of_decide_eq_true (by with_unfolding_all rfl))⟩

/-- Claim C3 (amended): after any admissible trace from the initial state
(each result report names a URL dispatched earlier and not yet reported),
`urlsQueued` is at least `urlsFetched + urlsFailed`. -/
theorem claim3_conservation (rt : String → String → Bool) (now0 : ℚ) (ops : List Op)
    (hadm : admissible rt (initState now0) [] ops = true) :
    (runOps rt (initState now0) ops).runState.stats.urlsFetched +
      (runOps rt (initState now0) ops).runState.stats.urlsFailed ≤
      (runOps rt (initState now0) ops).runState.stats.urlsQueued := by
  obtain ⟨o2, h⟩ := conservation_run rt ops (initState now0) [] hadm Nat.le.refl
  unfold ConservationInv at h
  omega

/-- Witness for Claim C3 at a concrete admissible trace with a dispatch
and a successful report that discovers a new URL. -/
theorem claim3_conservation_witness :
    admissible rtFalse (initState 0) [] c3okTrace = true ∧
    (runOps rtFalse (initState 0) c3okTrace).runState.stats.urlsFetched +
      (runOps rtFalse (initState 0) c3okTrace).runState.stats.urlsFailed ≤
      (runOps rtFalse (initState 0) c3okTrace).runState.stats.urlsQueued :=
  ⟨by with_unfolding_all rfl,
   claim3_conservation rtFalse 0 c3okTrace (by with_unfolding_all rfl)⟩

end Crawler
